import Mathlib

/-!
# Leave management backend: shallow embedding of `src/backend/index.js`

The Express handlers of the backend are embedded as pure functions over an explicit
store. The Firebase Realtime Database is a pair of keyed collections (`users`,
`leaveRequests`); every handler takes the store and returns the store after the call
together with the HTTP response.

Conventions of the embedding:

* JavaScript numbers that the handlers compute with (balances, day counts, epoch
  milliseconds) are integers (`Int`); a balance field that is absent, or does not have
  `typeof x === "number"`, is `none`.
* Values that come from outside the handler (clock, generated push key, the host
  `Date` parser, a database call that rejects) are fields of `Env`.
* `verifyToken` is the identity provider; a handler receives the decoded `req.user`.
-/

namespace LeaveManagement

/-! ## Keyed collections -/

/-- Value stored under key `k` of a keyed collection (`snapshot.val()`, `none` for `null`). -/
def kvGet {α : Type} : List (String × α) → String → Option α
  | [], _ => none
  | (k', v) :: rest, k => if k' = k then some v else kvGet rest k

/-- Write `v` under key `k`: replaces the value of an existing child, adds the child otherwise. -/
def kvSet {α : Type} : List (String × α) → String → α → List (String × α)
  | [], k, v => [(k, v)]
  | (k', v') :: rest, k, v => if k' = k then (k, v) :: rest else (k', v') :: kvSet rest k v

/-- Remove the child with key `k`. -/
def kvRemove {α : Type} : List (String × α) → String → List (String × α)
  | [], _ => []
  | (k', v') :: rest, k => if k' = k then kvRemove rest k else (k', v') :: kvRemove rest k

/-! ## Data model -/

/-- The record at `users/<uid>/leaveBalance`; `none` is a field without a number. -/
structure LeaveBalance where
  annual : Option Int
  sick : Option Int
  casual : Option Int
deriving DecidableEq, Repr

/-- The record at `users/<uid>`. -/
structure UserRecord where
  email : Option String
  role : Option String
  leaveBalance : Option LeaveBalance
  createdAt : Option Nat
  fullName : Option String
  phone : Option String
  department : Option String
  employeeId : Option String
deriving DecidableEq, Repr

/-- The record at `leaveRequests/<id>`. -/
structure LeaveRequest where
  userId : String
  userEmail : String
  startDate : String
  endDate : String
  leaveType : String
  reason : String
  days : Int
  status : String
  createdAt : Nat
  reviewedBy : Option String
  reviewedAt : Option Nat
  adminComment : Option String
deriving DecidableEq, Repr

/-- The database: the two top-level collections. -/
structure Store where
  users : List (String × UserRecord)
  leaveRequests : List (String × LeaveRequest)
deriving DecidableEq, Repr

/-- The decoded token that `verifyToken` puts in `req.user`. -/
structure AuthUser where
  uid : String
  email : String
deriving DecidableEq, Repr

/-- A database call that can reject, with the path of its reference. -/
inductive DbOp where
  | once (path : String)
  | set (path : String)
  | update (path : String)
  | remove (path : String)
deriving DecidableEq, Repr

/-- What a handler takes from outside the request: configuration, clock, generated key,
the host date parser, and which database calls reject during this invocation. -/
structure Env where
  /-- The guard `db && firebaseInitialized`. -/
  firebaseInitialized : Bool
  /-- Database calls that throw in this invocation. -/
  rejects : DbOp → Bool
  /-- The `err.message` of a database call that throws or rejects. -/
  errMessage : String
  /-- The host parser `new Date(s).getTime()`, `none` for `NaN`. -/
  dateParse : String → Option Int
  /-- The value of `new Date().toISOString().slice(0, 10)`: the date of the current
  instant in UTC, whatever the time zone of the server. -/
  todayStr : String
  /-- The value of `Date.now()`. -/
  now : Nat
  /-- The value that `ServerValue.TIMESTAMP` resolves to. -/
  serverTimestamp : Nat
  /-- The key of `db.ref("leaveRequests").push()`. -/
  pushKey : String

/-- An HTTP response: `res.status(status).json(body)` or `res.status(status).json({ error })`. -/
inductive Response (α : Type) where
  | json (status : Nat) (body : α)
  | error (status : Nat) (error : String)
deriving DecidableEq, Repr

/-- The response is an error response. -/
def Response.isError {α : Type} : Response α → Bool
  | .json _ _ => false
  | .error _ _ => true

/-! ## Constants and guards -/

def ADMIN_EMAILS : List String := ["admin@example.com", "admin@gmail.com"]

def isAdmin (email : String) : Bool := ADMIN_EMAILS.contains email

def DEFAULT_BALANCE : LeaveBalance := { annual := some 12, sick := some 10, casual := some 8 }

def LEAVE_TYPES : List String := ["annual", "sick", "casual", "unpaid"]

def STATUSES : List String := ["pending", "approved", "rejected"]

/-- JavaScript truthiness of a value that is a string, `undefined` or `null`. -/
def truthy : Option String → Bool
  | some s => s != ""
  | none => false

/-! ## JavaScript strings, dates and arithmetic -/

/-- ECMAScript `WhiteSpace` and `LineTerminator` code points, the ones `trim` strips. -/
def isWhiteSpace (c : Char) : Bool :=
  [9, 10, 11, 12, 13, 32, 160, 5760, 8192, 8193, 8194, 8195, 8196, 8197, 8198, 8199, 8200,
    8201, 8202, 8232, 8233, 8239, 8287, 12288, 65279].contains c.toNat

/-- `String.prototype.trim`. -/
def jsTrim (s : String) : String :=
  String.mk ((s.data.dropWhile isWhiteSpace).reverse.dropWhile isWhiteSpace).reverse

/-- Code-unit-wise lexicographic `a < b` on strings. -/
def strLt : List Char → List Char → Bool
  | [], [] => false
  | [], _ :: _ => true
  | _ :: _, [] => false
  | a :: as, b :: bs =>
    if a.toNat < b.toNat then true else if a.toNat = b.toNat then strLt as bs else false

/-- The relational operator `a < b` of JavaScript on two strings. -/
def jsLt (a b : String) : Bool := strLt a.data b.data

/-- `Math.ceil(a / b)` for a positive divisor. -/
def ceilDiv (a b : Int) : Int := -((-a) / b)

/-- Milliseconds per day, `24 * 60 * 60 * 1000`. -/
def msPerDay : Int := 24 * 60 * 60 * 1000

/-- ECMAScript `DayFromYear`: the day number of 1 January of year `y` (1970-01-01 is day 0). -/
def dayFromYear (y : Int) : Int :=
  365 * (y - 1970) + (y - 1969) / 4 - (y - 1901) / 100 + (y - 1601) / 400

def isLeapYear (y : Int) : Bool :=
  (y % 4 == 0 && y % 100 != 0) || y % 400 == 0

/-- Number of days of month `m` (1 to 12) of year `y`; 0 for a month out of range. -/
def daysInMonth (y : Int) (m : Nat) : Nat :=
  match m with
  | 1 => 31
  | 2 => if isLeapYear y then 29 else 28
  | 3 => 31
  | 4 => 30
  | 5 => 31
  | 6 => 30
  | 7 => 31
  | 8 => 31
  | 9 => 30
  | 10 => 31
  | 11 => 30
  | 12 => 31
  | _ => 0

/-- Days of year `y` that precede its month `m` (1 to 12). -/
def daysBeforeMonth (y : Int) (m : Nat) : Nat :=
  ((List.range m).map (fun i => daysInMonth y i)).sum

/-- The date `y-m-d` is a date of the proleptic Gregorian calendar. -/
def validDate (y m d : Nat) : Bool :=
  1 ≤ m && m ≤ 12 && 1 ≤ d && d ≤ daysInMonth y m

/-- Day number of the calendar date `y-m-d` (1970-01-01 is day 0). -/
def dayNumber (y m d : Nat) : Int :=
  dayFromYear y + daysBeforeMonth y m + d - 1

/-- Value of a decimal digit character. -/
def digitVal (c : Char) : Option Nat :=
  if 48 ≤ c.toNat ∧ c.toNat ≤ 57 then some (c.toNat - 48) else none

/-- Value of a run of decimal digit characters, `none` if one is not a digit. -/
def digitsVal : List Char → Option Nat
  | [] => some 0
  | c :: cs =>
    match digitVal c, digitsVal cs with
    | some v, some r => some (v * 10 ^ cs.length + r)
    | _, _ => none

/-- The ECMAScript date-time form `YYYY-MM-DDTHH:mm:ss` without offset, read as local
time in a zone that is `tz` milliseconds ahead of UTC: the epoch milliseconds, or `none`
(`NaN`) for a string that is not of this form or has an element out of range. -/
def isoLocalTime (tz : Int) (s : String) : Option Int :=
  match s.data with
  | [y1, y2, y3, y4, s1, m1, m2, s2, d1, d2, t, h1, h2, c1, n1, n2, c2, e1, e2] =>
    if s1 = '-' ∧ s2 = '-' ∧ t = 'T' ∧ c1 = ':' ∧ c2 = ':' then
      match digitsVal [y1, y2, y3, y4], digitsVal [m1, m2], digitsVal [d1, d2],
          digitsVal [h1, h2], digitsVal [n1, n2], digitsVal [e1, e2] with
      | some y, some m, some d, some hh, some mm, some ss =>
        if validDate y m d ∧ hh ≤ 23 ∧ mm ≤ 59 ∧ ss ≤ 59 then
          some (dayNumber y m d * msPerDay + ((hh * 60 + mm) * 60 + ss) * 1000 - tz)
        else none
      | _, _, _, _, _, _ => none
    else none
  | _ => none

/-- The decimal digit character of `n < 10`. -/
def digitChar (n : Nat) : Char := Char.ofNat (48 + n % 10)

/-- The date `y-m-d` in the form `YYYY-MM-DD` (years 0 to 9999), as `toISOString` and a
date input write it. -/
def isoDate (y m d : Nat) : String :=
  String.mk [digitChar (y / 1000), digitChar (y / 100), digitChar (y / 10), digitChar y, '-',
    digitChar (m / 10), digitChar m, '-', digitChar (d / 10), digitChar d]

/-! ## Store access -/

/-- The value at `users/<uid>/leaveBalance`, `none` when nothing is stored there. -/
def getBalance (db : Store) (uid : String) : Option LeaveBalance :=
  match kvGet db.users uid with
  | some u => u.leaveBalance
  | none => none

/-- A user record without any child. -/
def emptyUser : UserRecord :=
  { email := none, role := none, leaveBalance := none, createdAt := none, fullName := none,
    phone := none, department := none, employeeId := none }

/-- The write `db.ref("users/<uid>/leaveBalance").set(bal)`: only that child of the
user record changes, and the record is created when the user has none. -/
def setBalance (db : Store) (uid : String) (bal : LeaveBalance) : Store :=
  { db with
    users := kvSet db.users uid
      { (kvGet db.users uid).getD emptyUser with leaveBalance := some bal } }

/-- The write `db.ref("users/<uid>/leaveBalance").update(updates)`: the children named
in `updates` are overwritten, the others are kept; an empty `updates` writes nothing. -/
def updateBalance (db : Store) (uid : String) (updates : LeaveBalance) : Store :=
  if updates.annual.isNone ∧ updates.sick.isNone ∧ updates.casual.isNone then db
  else
    let cur := (getBalance db uid).getD { annual := none, sick := none, casual := none }
    setBalance db uid
      { annual := match updates.annual with
          | some n => some n
          | none => cur.annual
        sick := match updates.sick with
          | some n => some n
          | none => cur.sick
        casual := match updates.casual with
          | some n => some n
          | none => cur.casual }

/-- The path of a request, the template string of `db.ref` in the request handlers. -/
def requestPath (id : String) : String := "leaveRequests/" ++ id

/-- The path of a balance record, the template string of `db.ref` in the balance handlers. -/
def balancePath (uid : String) : String := "users/" ++ uid ++ "/leaveBalance"

/-! ## Users and balance handlers -/

/-- Handler `GET /api/users`. -/
def getUsers (env : Env) (user : AuthUser) (db : Store) : Response (List (String × UserRecord)) :=
  if !env.firebaseInitialized then .error 500 "Firebase not configured"
  else if !isAdmin user.email then .error 403 "Admin only"
  else if env.rejects (.once "users") then .error 500 env.errMessage
  else .json 200 db.users

/-- Handler `GET /api/leave-balance/:userId`. -/
def getLeaveBalance (env : Env) (user : AuthUser) (userId : String) (db : Store) :
    Response LeaveBalance :=
  if !env.firebaseInitialized then .error 500 "Firebase not configured"
  else if user.uid ≠ userId ∧ !isAdmin user.email then .error 403 "Forbidden"
  else if env.rejects (.once (balancePath userId)) then .error 500 env.errMessage
  else .json 200 ((getBalance db userId).getD DEFAULT_BALANCE)

/-- A value of a JSON request body. -/
inductive JsVal where
  | undefined
  | null
  | bool (b : Bool)
  | number (n : Int)
  | string (s : String)
deriving DecidableEq, Repr

/-- The number `v` when `typeof v === "number"`. -/
def JsVal.asNumber : JsVal → Option Int
  | .number n => some n
  | _ => none

/-- The body of `POST /api/leave-balance`. -/
structure BalanceBody where
  userId : Option String
  annual : JsVal
  sick : JsVal
  casual : JsVal
deriving DecidableEq, Repr

/-- Handler `POST /api/leave-balance`. -/
def postLeaveBalance (env : Env) (user : AuthUser) (body : BalanceBody) (db : Store) :
    Store × Response LeaveBalance :=
  if !env.firebaseInitialized then (db, .error 500 "Firebase not configured")
  else if !isAdmin user.email then (db, .error 403 "Admin only")
  else if !truthy body.userId then (db, .error 400 "userId required")
  else
    let userId := body.userId.getD ""
    let updates : LeaveBalance :=
      { annual := body.annual.asNumber, sick := body.sick.asNumber,
        casual := body.casual.asNumber }
    if env.rejects (.update (balancePath userId)) then (db, .error 500 env.errMessage)
    else
      let db1 := updateBalance db userId updates
      if env.rejects (.once (balancePath userId)) then (db1, .error 500 env.errMessage)
      else (db1, .json 200 ((getBalance db1 userId).getD DEFAULT_BALANCE))

/-- The body of `POST /api/register-user`. -/
structure RegisterBody where
  email : Option String
  role : Option String
  fullName : Option String
  phone : Option String
  department : Option String
  employeeId : Option String
deriving DecidableEq, Repr

/-- An optional profile field: kept, trimmed, when `x != null && String(x).trim()`. -/
def profileField : Option String → Option String
  | some s => if jsTrim s != "" then some (jsTrim s) else none
  | none => none

/-- Handler `POST /api/register-user`. -/
def postRegisterUser (env : Env) (user : AuthUser) (body : RegisterBody) (db : Store) :
    Store × Response Unit :=
  if !env.firebaseInitialized then (db, .error 500 "Firebase not configured")
  else if !truthy body.email || !truthy body.role then (db, .error 400 "email and role required")
  else if user.email ≠ body.email.getD "" then (db, .error 400 "Email mismatch")
  else
    let userData : UserRecord :=
      { email := body.email, role := body.role, leaveBalance := some DEFAULT_BALANCE,
        createdAt := some env.now, fullName := profileField body.fullName,
        phone := profileField body.phone, department := profileField body.department,
        employeeId := profileField body.employeeId }
    if env.rejects (.set ("users/" ++ user.uid)) then (db, .error 500 env.errMessage)
    else ({ db with users := kvSet db.users user.uid userData }, .json 200 ())

/-! ## Leave request handlers -/

/-- The query of `GET /api/leave-requests`. -/
structure ListQuery where
  userId : Option String
  status : Option String
deriving DecidableEq, Repr

/-- The order of `orderByChild("createdAt")`: ascending `createdAt`, children with the
same value in key order. -/
def childLe (a b : String × LeaveRequest) : Bool :=
  a.2.createdAt < b.2.createdAt || (a.2.createdAt == b.2.createdAt && !jsLt b.1 a.1)

/-- The children of `leaveRequests` as `orderByChild("createdAt")` delivers them. -/
def orderByCreatedAt (l : List (String × LeaveRequest)) : List (String × LeaveRequest) :=
  l.insertionSort (fun a b => childLe a b = true)

/-- Handler `GET /api/leave-requests`. -/
def getLeaveRequests (env : Env) (user : AuthUser) (query : ListQuery) (db : Store) :
    Response (List (String × LeaveRequest)) :=
  if !env.firebaseInitialized then .error 500 "Firebase not configured"
  else
    let isAdm := isAdmin user.email
    let filterUserId : Option String :=
      if truthy query.userId then query.userId else if isAdm then none else some user.uid
    if env.rejects (.once "leaveRequests") then .error 500 env.errMessage
    else
      let list := (orderByCreatedAt db.leaveRequests).reverse
      let list := if truthy filterUserId then
        list.filter (fun r => r.2.userId = filterUserId.getD "") else list
      let list := if truthy query.status then
        list.filter (fun r => r.2.status = query.status.getD "") else list
      .json 200 list

/-- The body of `POST /api/leave-requests`. -/
structure CreateBody where
  startDate : Option String
  endDate : Option String
  leaveType : Option String
  reason : Option String
deriving DecidableEq, Repr

/-- Handler `POST /api/leave-requests`. -/
def postLeaveRequests (env : Env) (user : AuthUser) (body : CreateBody) (db : Store) :
    Store × Response (String × LeaveRequest) :=
  if !env.firebaseInitialized then (db, .error 500 "Firebase not configured")
  else if !truthy body.startDate || !truthy body.endDate || !truthy body.leaveType
      || !truthy body.reason then
    (db, .error 400 "startDate, endDate, leaveType, reason required")
  else
    let startDate := body.startDate.getD ""
    let endDate := body.endDate.getD ""
    let leaveType := body.leaveType.getD ""
    let reason := body.reason.getD ""
    if !LEAVE_TYPES.contains leaveType then (db, .error 400 "Invalid leaveType")
    else
      match env.dateParse (startDate ++ "T00:00:00"), env.dateParse (endDate ++ "T23:59:59") with
      | some start, some end_ =>
        if end_ < start then (db, .error 400 "Invalid dates")
        else if jsLt startDate env.todayStr then
          (db, .error 400 "Start date cannot be in the past")
        else
          let days := ceilDiv (end_ - start) msPerDay + 1
          let data : LeaveRequest :=
            { userId := user.uid, userEmail := user.email, startDate := startDate,
              endDate := endDate, leaveType := leaveType, reason := jsTrim reason,
              days := days, status := "pending", createdAt := env.serverTimestamp,
              reviewedBy := none, reviewedAt := none, adminComment := none }
          if env.rejects (.set (requestPath env.pushKey)) then (db, .error 500 env.errMessage)
          else
            let db1 := { db with leaveRequests := kvSet db.leaveRequests env.pushKey data }
            if env.rejects (.once (requestPath env.pushKey)) then
              (db1, .error 500 env.errMessage)
            else (db1, .json 201 (env.pushKey, data))
      | _, _ => (db, .error 400 "Invalid dates")

/-- The body of `PATCH /api/leave-requests/:id`. -/
structure ReviewBody where
  status : Option String
  adminComment : Option String
deriving DecidableEq, Repr

/-- The balance that the approval branch writes back (lines 250 to 256): the category of
the request, when it holds a number, is lowered by `days` and clamped at 0. -/
def debitBalance (bal : LeaveBalance) (leaveType : String) (days : Int) : LeaveBalance :=
  if leaveType = "annual" ∧ bal.annual.isSome then
    { bal with annual := bal.annual.map (fun a => max 0 (a - days)) }
  else if leaveType = "sick" ∧ bal.sick.isSome then
    { bal with sick := bal.sick.map (fun a => max 0 (a - days)) }
  else if leaveType = "casual" ∧ bal.casual.isSome then
    { bal with casual := bal.casual.map (fun a => max 0 (a - days)) }
  else bal

/-- The write `ref.update(updates)` followed by `ref.once("value")` at the end of the
review handler, on the store `db1` that the approval branch left. -/
def commitReview (env : Env) (user : AuthUser) (id : String) (status : String)
    (adminComment : Option String) (data : LeaveRequest) (db1 : Store) :
    Store × Response (String × LeaveRequest) :=
  if env.rejects (.update (requestPath id)) then (db1, .error 500 env.errMessage)
  else
    let updated : LeaveRequest :=
      { data with
        status := status
        reviewedBy := some user.email
        reviewedAt := some env.serverTimestamp
        adminComment := match adminComment with
          | some c => some c
          | none => data.adminComment }
    let db2 := { db1 with leaveRequests := kvSet db1.leaveRequests id updated }
    if env.rejects (.once (requestPath id)) then (db2, .error 500 env.errMessage)
    else (db2, .json 200 (id, updated))

/-- Handler `PATCH /api/leave-requests/:id`. -/
def patchLeaveRequest (env : Env) (user : AuthUser) (id : String) (body : ReviewBody)
    (db : Store) : Store × Response (String × LeaveRequest) :=
  if !env.firebaseInitialized then (db, .error 500 "Firebase not configured")
  else if !isAdmin user.email then (db, .error 403 "Admin only")
  else if !truthy body.status || !STATUSES.contains (body.status.getD "") then
    (db, .error 400 "Valid status required (pending/approved/rejected)")
  else
    let status := body.status.getD ""
    if env.rejects (.once (requestPath id)) then (db, .error 500 env.errMessage)
    else
      match kvGet db.leaveRequests id with
      | none => (db, .error 404 "Request not found")
      | some data =>
        if status = "approved" then
          if env.rejects (.once (balancePath data.userId)) then (db, .error 500 env.errMessage)
          else
            let bal := (getBalance db data.userId).getD DEFAULT_BALANCE
            let bal := debitBalance bal data.leaveType data.days
            if env.rejects (.set (balancePath data.userId)) then
              (db, .error 500 env.errMessage)
            else
              commitReview env user id status body.adminComment data
                (setBalance db data.userId bal)
        else commitReview env user id status body.adminComment data db

/-! ### Paths of the store

The route parameter `:id` reaches `db.ref` inside the template string
`leaveRequests/<id>`, so it is read as a path of the store, not as a key: the SDK throws
for a path that holds one of `.`, `#`, `$`, `[`, `]` or an ASCII control character
(`Paths must be non-empty strings and can't contain ".", "#", "$", "[", or "]"`), and it
reads the other paths as the keys between `/`, dropping the empty ones. -/

/-- The call `db.ref(path)` throws for this path. -/
def invalidPath (path : String) : Bool :=
  path.data.any fun c =>
    ['.', '#', '$', '[', ']'].contains c || decide (c.toNat < 32) || decide (c.toNat = 127)

/-- The pieces of a path between `/`. -/
def splitSlash : List Char → List (List Char)
  | [] => [[]]
  | c :: cs =>
    if c = '/' then [] :: splitSlash cs
    else
      match splitSlash cs with
      | [] => [[c]]
      | p :: ps => (c :: p) :: ps

/-- The keys that a path names: its pieces between `/` without the empty ones. -/
def pathPieces (path : String) : List String :=
  ((splitSlash path.data).filter fun p => !p.isEmpty).map String.mk

/-- The key of the request that `leaveRequests/<id>` addresses, `none` when the path is
the collection itself or leads below a request. -/
def requestKey (id : String) : Option String :=
  match pathPieces id with
  | [key] => some key
  | _ => none

/-- The request record has a child with this key. -/
def hasField (r : LeaveRequest) (field : String) : Bool :=
  ["userId", "userEmail", "startDate", "endDate", "leaveType", "reason", "days", "status",
      "createdAt"].contains field
    || (field == "reviewedBy" && r.reviewedBy.isSome)
    || (field == "reviewedAt" && r.reviewedAt.isSome)
    || (field == "adminComment" && r.adminComment.isSome)

/-- The value of `snap.exists()` for the node that the pieces name below `leaveRequests`:
the collection, a request, a child of a request; the children of a request are leaves. -/
def nodeExists (db : Store) : List String → Bool
  | [] => !db.leaveRequests.isEmpty
  | [key] => (kvGet db.leaveRequests key).isSome
  | [key, field] =>
    match kvGet db.leaveRequests key with
    | some r => hasField r field
    | none => false
  | _ => false

/-- The id is a key of the store: not empty, without `/` and without a character that
`db.ref` refuses. -/
def validKey (id : String) : Bool :=
  id != "" && !id.data.contains '/' && !invalidPath id

/-- Handler `DELETE /api/leave-requests/:id`. When the path addresses a node that is not
a request (the collection, or a child of a request, whose value is a string or a
number), `data.userId` and `data.status` are `undefined`, so both comparisons of lines
279 and 282 hold. -/
def deleteLeaveRequest (env : Env) (user : AuthUser) (id : String) (db : Store) :
    Store × Response String :=
  if !env.firebaseInitialized then (db, .error 500 "Firebase not configured")
  else if invalidPath (requestPath id) then (db, .error 500 env.errMessage)
  else if env.rejects (.once (requestPath id)) then (db, .error 500 env.errMessage)
  else
    match requestKey id with
    | some key =>
      match kvGet db.leaveRequests key with
      | none => (db, .error 404 "Request not found")
      | some data =>
        if data.userId ≠ user.uid ∧ !isAdmin user.email then (db, .error 403 "Forbidden")
        else if data.status ≠ "pending" then
          (db, .error 400 "Can only delete pending requests")
        else if env.rejects (.remove (requestPath id)) then (db, .error 500 env.errMessage)
        else ({ db with leaveRequests := kvRemove db.leaveRequests key }, .json 200 id)
    | none =>
      if !nodeExists db (pathPieces id) then (db, .error 404 "Request not found")
      else if !isAdmin user.email then (db, .error 403 "Forbidden")
      else (db, .error 400 "Can only delete pending requests")

/-- The body of the response of `GET /api/stats`. -/
structure Stats where
  pending : Nat
  approved : Nat
  rejected : Nat
  total : Nat
deriving DecidableEq, Repr

/-- The counting loop of the stats handler: `(pending, approved, rejected)`. -/
def countStatuses : List (String × LeaveRequest) → Nat × Nat × Nat
  | [] => (0, 0, 0)
  | (_, r) :: rest =>
    let (p, a, j) := countStatuses rest
    if r.status = "pending" then (p + 1, a, j)
    else if r.status = "approved" then (p, a + 1, j)
    else (p, a, j + 1)

/-- Handler `GET /api/stats`. -/
def getStats (env : Env) (user : AuthUser) (db : Store) : Response Stats :=
  if !env.firebaseInitialized || !isAdmin user.email then .error 403 "Admin only"
  else if env.rejects (.once "leaveRequests") then .error 500 env.errMessage
  else
    let (pending, approved, rejected) := countStatuses db.leaveRequests
    .json 200
      { pending := pending, approved := approved, rejected := rejected,
        total := pending + approved + rejected }

/-! ## Sequences of calls -/

/-- A call of one of the handlers that write to the store, with its environment. -/
inductive Op where
  | register (env : Env) (user : AuthUser) (body : RegisterBody)
  | setBalance (env : Env) (user : AuthUser) (body : BalanceBody)
  | create (env : Env) (user : AuthUser) (body : CreateBody)
  | review (env : Env) (user : AuthUser) (id : String) (body : ReviewBody)
  | cancel (env : Env) (user : AuthUser) (id : String)

/-- The store after one call. -/
def step (db : Store) : Op → Store
  | .register env user body => (postRegisterUser env user body db).1
  | .setBalance env user body => (postLeaveBalance env user body db).1
  | .create env user body => (postLeaveRequests env user body db).1
  | .review env user id body => (patchLeaveRequest env user id body db).1
  | .cancel env user id => (deleteLeaveRequest env user id db).1

/-- The store after a sequence of calls. -/
def run (db : Store) (ops : List Op) : Store := ops.foldl step db

/-- An environment in which the database is configured and no database call rejects. -/
def Env.healthy (env : Env) : Prop :=
  env.firebaseInitialized = true ∧ ∀ op, env.rejects op = false

/-! ## Invariant: balances are not negative -/

/-- Every category of the balance that holds a number holds one that is at least 0. -/
def nonnegBalance (b : LeaveBalance) : Bool :=
  (b.annual.all fun n => decide (0 ≤ n)) && (b.sick.all fun n => decide (0 ≤ n))
    && (b.casual.all fun n => decide (0 ≤ n))

/-- The balance record of the user, if there is one, has no negative category. -/
def nonnegUser (u : UserRecord) : Bool :=
  match u.leaveBalance with
  | some b => nonnegBalance b
  | none => true

/-- No stored balance record has a negative category. -/
def balancesNonneg (db : Store) : Bool := db.users.all fun p => nonnegUser p.2

/-- The call does not supply a negative number: every number in the body of a
`setBalance` call is at least 0. -/
def Op.suppliesNonneg : Op → Bool
  | .setBalance _ _ body =>
    nonnegBalance
      { annual := body.annual.asNumber, sick := body.sick.asNumber,
        casual := body.casual.asNumber }
  | _ => true

/-! ## Properties of stored requests -/

/-- The record that the create handler writes (lines 203 to 213), with the computed day
count `days`. -/
def newRequest (env : Env) (user : AuthUser) (body : CreateBody) (days : Int) : LeaveRequest :=
  { userId := user.uid, userEmail := user.email, startDate := body.startDate.getD "",
    endDate := body.endDate.getD "", leaveType := body.leaveType.getD "",
    reason := jsTrim (body.reason.getD ""), days := days, status := "pending",
    createdAt := env.serverTimestamp, reviewedBy := none, reviewedAt := none,
    adminComment := none }

/-- Every stored request satisfies `P`. -/
def allRequests (P : LeaveRequest → Bool) (db : Store) : Bool :=
  db.leaveRequests.all fun p => P p.2

/-- The category of the request is one of `LEAVE_TYPES`. -/
def listedCategory (r : LeaveRequest) : Bool := LEAVE_TYPES.contains r.leaveType

/-- The day count of the request is at least 1. -/
def positiveDays (r : LeaveRequest) : Bool := decide (1 ≤ r.days)

/-- The calendar day (day number, 1970-01-01 is day 0) of the instant `ms` in UTC. -/
def utcDay (ms : Nat) : Int := (ms : Int) / msPerDay

/-- The calendar day of the instant `ms` on the clock of a server whose zone is `tz`
milliseconds ahead of UTC: the server's current day. -/
def localDay (tz : Int) (ms : Nat) : Int := ((ms : Int) + tz) / msPerDay

/-- The filter of the specification, from its words: a caller who is not an admin is
always restricted to the requests they own, whatever owner filter is supplied; an admin
may pass any owner filter or none; a supplied status filter is applied. -/
def specFilter (user : AuthUser) (query : ListQuery) (r : LeaveRequest) : Bool :=
  (if isAdmin user.email then
      match query.userId with
      | some owner => decide (r.userId = owner)
      | none => true
    else decide (r.userId = user.uid))
    && (match query.status with
      | some status => decide (r.status = status)
      | none => true)

/-- The filter that the code of the list handler applies for this caller and query, as
one predicate: the owner filter `filterUserId` of line 163, in which a supplied `userId`
comes first, and the status filter, each only when its value is truthy (lines 172 and
173). -/
def appliedFilter (user : AuthUser) (query : ListQuery) (r : LeaveRequest) : Bool :=
  let filterUserId : Option String :=
    if truthy query.userId then query.userId
    else if isAdmin user.email then none else some user.uid
  (!truthy filterUserId || decide (r.userId = filterUserId.getD ""))
    && (!truthy query.status || decide (r.status = query.status.getD ""))

/-! ## Answers of calls -/

/-- The HTTP status of an error response, `none` for a response that is not an error. -/
def Response.errorStatus {α : Type} : Response α → Option Nat
  | .json _ _ => none
  | .error status _ => some status

/-- The status of the error that a call is answered with, `none` when it succeeds. -/
def stepError (db : Store) : Op → Option Nat
  | .register env user body => (postRegisterUser env user body db).2.errorStatus
  | .setBalance env user body => (postLeaveBalance env user body db).2.errorStatus
  | .create env user body => (postLeaveRequests env user body db).2.errorStatus
  | .review env user id body => (patchLeaveRequest env user id body db).2.errorStatus
  | .cancel env user id => (deleteLeaveRequest env user id db).2.errorStatus

/-- The status of the request is one of `STATUSES`. -/
def validStatus (r : LeaveRequest) : Bool := STATUSES.contains r.status

/-! ## An approval between its awaits

The approval branch of `PATCH /api/leave-requests/:id` awaits the database five times:
the read of the request (line 235), the read of the balance (line 248), the write of
the balance (line 257), the update of the request (line 259) and the read of the
request for the answer (line 260). What runs between two awaits runs without
interruption; while a call waits, the event loop runs other calls. The definitions
below split the handler at its awaits, each await with the code up to the next one as
one step on the store, so that the steps of two calls can be taken in any order. -/

/-- An approval call in flight: a review call whose body has the status `approved`. -/
structure ApprovalCall where
  env : Env
  user : AuthUser
  id : String
  adminComment : Option String

/-- Where an approval call stands, with the local variables that it holds there. -/
inductive ApprovalState where
  /-- The call has arrived. -/
  | start
  /-- Line 235 has resolved: `data` is `snap.val()`. -/
  | requestRead (data : LeaveRequest)
  /-- Line 248 has resolved and lines 249 to 256 have run: `bal` is the debited balance. -/
  | balanceRead (data : LeaveRequest) (bal : LeaveBalance)
  /-- Line 257 has resolved. -/
  | balanceWritten
  /-- Line 259 has resolved. -/
  | requestUpdated
  /-- The call is answered. -/
  | done (response : Response (String × LeaveRequest))
deriving DecidableEq, Repr

/-- One step of an approval call on the store as it is when the step is taken: the
guards and the read of the request; the read of the balance and the debit of the local
copy; the write of the local copy; the update of the review fields of the request as it
is stored then; the read of the request for the answer. An answered call stays as it
is. The result is `none` when the request is no longer stored at the update or at the
last read: the node then holds the review fields only, which is not a request record. -/
def approvalStep (call : ApprovalCall) (db : Store) :
    ApprovalState → Option (ApprovalState × Store)
  | .start =>
    if !call.env.firebaseInitialized then
      some (.done (.error 500 "Firebase not configured"), db)
    else if !isAdmin call.user.email then some (.done (.error 403 "Admin only"), db)
    else if call.env.rejects (.once (requestPath call.id)) then
      some (.done (.error 500 call.env.errMessage), db)
    else
      match kvGet db.leaveRequests call.id with
      | none => some (.done (.error 404 "Request not found"), db)
      | some data => some (.requestRead data, db)
  | .requestRead data =>
    if call.env.rejects (.once (balancePath data.userId)) then
      some (.done (.error 500 call.env.errMessage), db)
    else
      let bal := (getBalance db data.userId).getD DEFAULT_BALANCE
      some (.balanceRead data (debitBalance bal data.leaveType data.days), db)
  | .balanceRead data bal =>
    if call.env.rejects (.set (balancePath data.userId)) then
      some (.done (.error 500 call.env.errMessage), db)
    else some (.balanceWritten, setBalance db data.userId bal)
  | .balanceWritten =>
    if call.env.rejects (.update (requestPath call.id)) then
      some (.done (.error 500 call.env.errMessage), db)
    else
      match kvGet db.leaveRequests call.id with
      | none => none
      | some stored =>
        let updated : LeaveRequest :=
          { stored with
            status := "approved"
            reviewedBy := some call.user.email
            reviewedAt := some call.env.serverTimestamp
            adminComment := match call.adminComment with
              | some c => some c
              | none => stored.adminComment }
        some (.requestUpdated,
          { db with leaveRequests := kvSet db.leaveRequests call.id updated })
  | .requestUpdated =>
    if call.env.rejects (.once (requestPath call.id)) then
      some (.done (.error 500 call.env.errMessage), db)
    else
      match kvGet db.leaveRequests call.id with
      | none => none
      | some updated => some (.done (.json 200 (call.id, updated)), db)
  | .done response => some (.done response, db)

/-- An approval call run alone: its five steps one after the other. -/
def approveAlone (call : ApprovalCall) (db : Store) : Option (ApprovalState × Store) :=
  (approvalStep call db .start).bind fun s1 =>
  (approvalStep call s1.2 s1.1).bind fun s2 =>
  (approvalStep call s2.2 s2.1).bind fun s3 =>
  (approvalStep call s3.2 s3.1).bind fun s4 =>
  approvalStep call s4.2 s4.1

/-- Which of two calls in flight takes the next step. -/
inductive Turn where
  | first
  | second
deriving DecidableEq, Repr

/-- Two approval calls in flight on one store, their steps taken in the order of the
schedule. -/
def interleave (c1 c2 : ApprovalCall) :
    List Turn → ApprovalState × ApprovalState × Store →
      Option (ApprovalState × ApprovalState × Store)
  | [], s => some s
  | .first :: rest, (s1, s2, db) =>
    (approvalStep c1 db s1).bind fun r => interleave c1 c2 rest (r.1, s2, r.2)
  | .second :: rest, (s1, s2, db) =>
    (approvalStep c2 db s2).bind fun r => interleave c1 c2 rest (s1, r.1, r.2)

/-! ## Scenario data -/

/-- An environment of a server in UTC on 2024-01-05 in which every database call works. -/
def scenarioEnv : Env :=
  { firebaseInitialized := true
    rejects := fun _ => false
    errMessage := ""
    dateParse := isoLocalTime 0
    todayStr := "2024-01-05"
    now := 1704412800000
    serverTimestamp := 1704412800000
    pushKey := "-Nreq2" }

/-- An environment of a server at UTC+05:30 (19800000 ms ahead of UTC) at the instant
2024-01-05T21:30:00Z, which is 03:00 on 2024-01-06 on the clock of the server;
`toISOString` gives the UTC date 2024-01-05. -/
def eastEnv : Env :=
  { firebaseInitialized := true
    rejects := fun _ => false
    errMessage := ""
    dateParse := isoLocalTime 19800000
    todayStr := "2024-01-05"
    now := 1704490200000
    serverTimestamp := 1704490200000
    pushKey := "-Nreq2" }

/-- A create call for the single day 2024-01-05, annual leave. -/
def jan5Body : CreateBody :=
  { startDate := some "2024-01-05", endDate := some "2024-01-05",
    leaveType := some "annual", reason := some "family visit" }

def adminUser : AuthUser := { uid := "uid-admin", email := "admin@example.com" }

def employeeA : AuthUser := { uid := "uid-a", email := "a@example.com" }

def employeeB : AuthUser := { uid := "uid-b", email := "b@example.com" }

/-- A registered user record with the given balance. -/
def userWithBalance (email : String) (bal : LeaveBalance) : UserRecord :=
  { emptyUser with email := some email, role := some "employee", leaveBalance := some bal }

/-- A request of employee A as `postLeaveRequests` stores it, with the given category,
day count and status. -/
def requestOfA (leaveType : String) (days : Int) (status : String) : LeaveRequest :=
  { userId := "uid-a", userEmail := "a@example.com", startDate := "2024-01-10",
    endDate := "2024-01-12", leaveType := leaveType, reason := "family visit", days := days,
    status := status, createdAt := 1704400000000, reviewedBy := none, reviewedAt := none,
    adminComment := none }

/-- A store with employees A and B on the default balance and no request. -/
def emptyRequestsStore : Store :=
  { users := [("uid-a", userWithBalance "a@example.com" DEFAULT_BALANCE),
      ("uid-b", userWithBalance "b@example.com" DEFAULT_BALANCE)]
    leaveRequests := [] }

/-- A store in which employee A, on the default balance, has one request `-Nreq1`. -/
def storeWithRequest (leaveType : String) (days : Int) (status : String) : Store :=
  { emptyRequestsStore with leaveRequests := [("-Nreq1", requestOfA leaveType days status)] }

/-- A store in which employee A has 2 sick days left and a pending sick request of 5 days. -/
def lowSickStore : Store :=
  { users := [("uid-a", userWithBalance "a@example.com"
      { annual := some 12, sick := some 2, casual := some 8 })]
    leaveRequests := [("-Nreq1", requestOfA "sick" 5 "pending")] }

/-- A store in which employee A has no user record and a pending unpaid request. -/
def unpaidStore : Store :=
  { users := [], leaveRequests := [("-Nreq1", requestOfA "unpaid" 3 "pending")] }

/-- A sequence of calls on `lowSickStore`: the admin sets A's annual balance to 3, A
creates a request, the admin approves the sick request of 5 days, A cancels the new one. -/
def scenarioCalls : List Op :=
  [.setBalance scenarioEnv adminUser
      { userId := some "uid-a", annual := .number 3, sick := .undefined, casual := .undefined },
    .create scenarioEnv employeeA
      { startDate := some "2024-01-10", endDate := some "2024-01-12",
        leaveType := some "annual", reason := some "family visit" },
    .review scenarioEnv adminUser "-Nreq1" { status := some "approved", adminComment := none },
    .cancel scenarioEnv employeeA "-Nreq2"]

/-- A create call of employee A with a category that is not listed. -/
def maternityBody : CreateBody :=
  { startDate := some "2024-01-10", endDate := some "2024-01-12",
    leaveType := some "maternity", reason := some "family visit" }

/-- A create call of employee A for 2024-01-10 to 2024-01-12, annual leave. -/
def annualBody : CreateBody :=
  { startDate := some "2024-01-10", endDate := some "2024-01-12",
    leaveType := some "annual", reason := some "  family visit " }

/-- A store with three requests: two of employee A, created at different times, one of
them approved, and one of employee B. -/
def threeRequestsStore : Store :=
  { emptyRequestsStore with
    leaveRequests :=
      [("-Nreq1", requestOfA "annual" 3 "pending"),
        ("-Nreq3", { requestOfA "sick" 1 "approved" with createdAt := 1704410000000 }),
        ("-Nreq2", { requestOfA "casual" 2 "pending" with
          userId := "uid-b", userEmail := "b@example.com", createdAt := 1704405000000 })] }

/-- A `setBalance` body for employee A that supplies only `annual = 5`. -/
def annualOnlyBody : BalanceBody :=
  { userId := some "uid-a", annual := .number 5, sick := .undefined, casual := .undefined }

/-- A `setBalance` body for employee A whose `annual` is the string "5" and whose `sick`
is the number 3. -/
def stringAnnualBody : BalanceBody :=
  { userId := some "uid-a", annual := .string "5", sick := .number 3, casual := .undefined }

/-- A store in which employee A is registered with a full name and a department and has
12, 2, 8 days left. -/
def registeredStore : Store :=
  { users := [("uid-a",
      { email := some "a@example.com", role := some "employee",
        leaveBalance := some { annual := some 12, sick := some 2, casual := some 8 },
        createdAt := some 1704000000000, fullName := some "Employee A", phone := none,
        department := some "Sales", employeeId := none })]
    leaveRequests := [("-Nreq1", requestOfA "sick" 5 "pending")] }

/-- A register call of employee A that supplies email and role only. -/
def registerBodyA : RegisterBody :=
  { email := some "a@example.com", role := some "employee", fullName := none, phone := none,
    department := none, employeeId := none }

/-- The scenario environment, except that the write `ref.update(updates)` on the request
`-Nreq1` rejects. -/
def updateRejectsEnv : Env :=
  { scenarioEnv with
    rejects := fun op => decide (op = .update (requestPath "-Nreq1"))
    errMessage := "permission denied" }

/-- A review body that rejects with a comment. -/
def rejectBody : ReviewBody := { status := some "rejected", adminComment := some "no cover" }

/-- A store in which employee A has 12, 10, 8 days left and two pending annual requests,
`-Nreq1` of 3 days and `-Nreq2` of 2 days. -/
def twoPendingStore : Store :=
  { emptyRequestsStore with
    leaveRequests :=
      [("-Nreq1", requestOfA "annual" 3 "pending"),
        ("-Nreq2", requestOfA "annual" 2 "pending")] }

/-- The approval of `-Nreq1` by the admin. -/
def approvalOfReq1 : ApprovalCall :=
  { env := scenarioEnv, user := adminUser, id := "-Nreq1", adminComment := none }

/-- The approval of `-Nreq2` by the admin. -/
def approvalOfReq2 : ApprovalCall :=
  { env := scenarioEnv, user := adminUser, id := "-Nreq2", adminComment := none }

/-- The schedule in which the two calls take their steps in turn. -/
def alternating : List Turn :=
  [.first, .second, .first, .second, .first, .second, .first, .second, .first, .second]

/-! ## Lemmas on keyed collections and the store -/

theorem kvGet_kvSet {α : Type} (l : List (String × α)) (k k' : String) (v : α) :
    kvGet (kvSet l k v) k' = if k = k' then some v else kvGet l k' := by
  induction l with
  | nil => simp [kvSet, kvGet]
  | cons p rest ih =>
    obtain ⟨k0, v0⟩ := p
    by_cases h0 : k0 = k
    · subst h0
      by_cases h : k0 = k' <;> simp [kvSet, kvGet, h]
    · by_cases h1 : k0 = k'
      · subst h1
        have h : ¬ k = k0 := fun e => h0 e.symm
        simp [kvSet, kvGet, h0, h]
      · simp [kvSet, kvGet, h0, h1, ih]

theorem kvGet_kvRemove {α : Type} (l : List (String × α)) (k k' : String) :
    kvGet (kvRemove l k) k' = if k = k' then none else kvGet l k' := by
  induction l with
  | nil => simp [kvRemove, kvGet]
  | cons p rest ih =>
    obtain ⟨k0, v0⟩ := p
    by_cases h0 : k0 = k
    · subst h0
      by_cases h : k0 = k'
      · subst h
        simpa [kvRemove] using ih
      · simp [kvRemove, kvGet, h, ih]
    · by_cases h1 : k0 = k'
      · subst h1
        have h : ¬ k = k0 := fun e => h0 e.symm
        simp [kvRemove, kvGet, h0, h]
      · simp [kvRemove, kvGet, h0, h1, ih]

theorem getBalance_setBalance (db : Store) (uid uid' : String) (bal : LeaveBalance) :
    getBalance (setBalance db uid bal) uid' =
      if uid = uid' then some bal else getBalance db uid' := by
  unfold getBalance setBalance
  simp only [kvGet_kvSet]
  by_cases h : uid = uid' <;> simp [h]

theorem getBalance_withRequests (db : Store) (l : List (String × LeaveRequest)) (uid : String) :
    getBalance { users := db.users, leaveRequests := l } uid = getBalance db uid := rfl

theorem leaveRequests_setBalance (db : Store) (uid : String) (bal : LeaveBalance) :
    (setBalance db uid bal).leaveRequests = db.leaveRequests := rfl

/-! ## Review: what a call that passes the guards does -/

/-- The request record after `ref.update(updates)` of a review. -/
theorem patchLeaveRequest_eq (env : Env) (henv : env.healthy) (user : AuthUser)
    (hadm : isAdmin user.email = true) (id status : String) (comment : Option String)
    (hst : status ∈ STATUSES) (db : Store) (r : LeaveRequest)
    (hr : kvGet db.leaveRequests id = some r) :
    patchLeaveRequest env user id { status := some status, adminComment := comment } db =
      commitReview env user id status comment r
        (if status = "approved" then
          setBalance db r.userId
            (debitBalance ((getBalance db r.userId).getD DEFAULT_BALANCE) r.leaveType r.days)
        else db) := by
  obtain ⟨hinit, hrej⟩ := henv
  have hne : status ≠ "" := by
    rintro rfl
    simp [STATUSES] at hst
  have hmem : STATUSES.contains status = true := by simpa using hst
  unfold patchLeaveRequest
  simp only [hinit, hadm, hrej, hr, truthy, Option.getD_some, hmem]
  by_cases h : status = "approved" <;> simp [h, hne]

theorem commitReview_eq (env : Env) (henv : env.healthy) (user : AuthUser) (id status : String)
    (comment : Option String) (r : LeaveRequest) (db1 : Store) :
    commitReview env user id status comment r db1 =
      ({ db1 with
          leaveRequests := kvSet db1.leaveRequests id
            { r with
              status := status
              reviewedBy := some user.email
              reviewedAt := some env.serverTimestamp
              adminComment := match comment with
                | some c => some c
                | none => r.adminComment } },
        .json 200 (id,
            { r with
              status := status
              reviewedBy := some user.email
              reviewedAt := some env.serverTimestamp
              adminComment := match comment with
                | some c => some c
                | none => r.adminComment })) := by
  obtain ⟨_, hrej⟩ := henv
  simp [commitReview, hrej]

/-- C1: for a pending request of category annual, sick or casual with duration `days`,
whose owner's balance holds the numbers `a`, `s`, `c`, the review with status `approved`
by an admin answers 200, leaves the request with status `approved`, and leaves the owner
with the category of the request at `max 0 (old - days)` and the two others as they
were; nothing requires the old value to cover `days`. -/
theorem approve_debits_clamped (env : Env) (henv : env.healthy) (user : AuthUser)
    (hadm : isAdmin user.email = true) (id : String) (comment : Option String) (db : Store)
    (r : LeaveRequest) (hr : kvGet db.leaveRequests id = some r)
    (_hpending : r.status = "pending")
    (hcat : r.leaveType = "annual" ∨ r.leaveType = "sick" ∨ r.leaveType = "casual")
    (a s c : Int)
    (hold : (getBalance db r.userId).getD DEFAULT_BALANCE =
      { annual := some a, sick := some s, casual := some c }) :
    (∃ body, (patchLeaveRequest env user id
        { status := some "approved", adminComment := comment } db).2 = .json 200 body
      ∧ body.1 = id ∧ body.2.status = "approved") ∧
    (kvGet (patchLeaveRequest env user id
        { status := some "approved", adminComment := comment } db).1.leaveRequests id).map
          (fun q => q.status) = some "approved" ∧
    getBalance (patchLeaveRequest env user id
        { status := some "approved", adminComment := comment } db).1 r.userId =
      some
        { annual := some (if r.leaveType = "annual" then max 0 (a - r.days) else a)
          sick := some (if r.leaveType = "sick" then max 0 (s - r.days) else s)
          casual := some (if r.leaveType = "casual" then max 0 (c - r.days) else c) } := by
  have hst : "approved" ∈ STATUSES := by simp [STATUSES]
  rw [patchLeaveRequest_eq env henv user hadm id "approved" comment hst db r hr,
    commitReview_eq env henv]
  refine ⟨⟨_, rfl, rfl, rfl⟩, ?_, ?_⟩
  · simp [kvGet_kvSet]
  · simp only [if_true, getBalance_withRequests, getBalance_setBalance, hold]
    rcases hcat with h | h | h <;> simp [debitBalance, h]

theorem scenarioEnv_healthy : scenarioEnv.healthy := ⟨rfl, fun _ => rfl⟩

/-- C1, the clamping scenario of the specification: 2 sick days left, a sick request of 5
days is approved; the approval answers 200 and the sick balance is 0. -/
theorem approve_debits_clamped_witness :
    (∃ body, (patchLeaveRequest scenarioEnv adminUser "-Nreq1"
        { status := some "approved", adminComment := none } lowSickStore).2 = .json 200 body
      ∧ body.1 = "-Nreq1" ∧ body.2.status = "approved") ∧
    (kvGet (patchLeaveRequest scenarioEnv adminUser "-Nreq1"
        { status := some "approved", adminComment := none } lowSickStore).1.leaveRequests
          "-Nreq1").map (fun q => q.status) = some "approved" ∧
    getBalance (patchLeaveRequest scenarioEnv adminUser "-Nreq1"
        { status := some "approved", adminComment := none } lowSickStore).1 "uid-a" =
      some { annual := some 12, sick := some 0, casual := some 8 } :=
  approve_debits_clamped scenarioEnv scenarioEnv_healthy adminUser (by decide) "-Nreq1" none
    lowSickStore (requestOfA "sick" 5 "pending") (by decide) (by decide) (by decide) 12 2 8
    (by decide)

/-! ## Creation: the stored day count -/

/-- C2: on the range 2024-01-10 to 2024-01-12, whose inclusive day count is 3, the create
handler stores `days = 4`; on the single day 2024-01-10, whose count is 1, it stores
`days = 2`. -/
theorem create_days_exceed_inclusive_count :
    dayNumber 2024 1 12 - dayNumber 2024 1 10 + 1 = 3 ∧
    (kvGet (postLeaveRequests scenarioEnv employeeA
        { startDate := some "2024-01-10", endDate := some "2024-01-12",
          leaveType := some "annual", reason := some "family visit" }
        emptyRequestsStore).1.leaveRequests "-Nreq2").map (fun r => r.days) = some 4 ∧
    (kvGet (postLeaveRequests scenarioEnv employeeA
        { startDate := some "2024-01-10", endDate := some "2024-01-10",
          leaveType := some "annual", reason := some "family visit" }
        emptyRequestsStore).1.leaveRequests "-Nreq2").map (fun r => r.days) = some 2 := by
  decide

/-! ## Review of a request that is not pending -/

/-- C3: a second review with status `approved` of the same request answers 200 again and
debits the owner a second time: 12 annual days, a request of 3 days, 9 after the first
approval and 6 after the second. -/
theorem second_approval_debits_again :
    getBalance (run (storeWithRequest "annual" 3 "pending")
      [.review scenarioEnv adminUser "-Nreq1" { status := some "approved", adminComment := none }])
      "uid-a" = some { annual := some 9, sick := some 10, casual := some 8 } ∧
    (patchLeaveRequest scenarioEnv adminUser "-Nreq1"
      { status := some "approved", adminComment := none }
      (run (storeWithRequest "annual" 3 "pending")
        [.review scenarioEnv adminUser "-Nreq1"
          { status := some "approved", adminComment := none }])).2.isError = false ∧
    getBalance (run (storeWithRequest "annual" 3 "pending")
      [.review scenarioEnv adminUser "-Nreq1" { status := some "approved", adminComment := none },
       .review scenarioEnv adminUser "-Nreq1" { status := some "approved", adminComment := none }])
      "uid-a" = some { annual := some 6, sick := some 10, casual := some 8 } := by
  decide

/-- C4: a review with status `pending` of an approved request answers 200 and leaves the
request with status `pending`; one with status `rejected` leaves it `rejected`. -/
theorem review_changes_terminal_status :
    (kvGet (storeWithRequest "annual" 3 "approved").leaveRequests "-Nreq1").map
      (fun r => r.status) = some "approved" ∧
    (kvGet (step (storeWithRequest "annual" 3 "approved")
      (.review scenarioEnv adminUser "-Nreq1"
        { status := some "pending", adminComment := none })).leaveRequests "-Nreq1").map
      (fun r => r.status) = some "pending" ∧
    (kvGet (step (storeWithRequest "annual" 3 "approved")
      (.review scenarioEnv adminUser "-Nreq1"
        { status := some "rejected", adminComment := none })).leaveRequests "-Nreq1").map
      (fun r => r.status) = some "rejected" := by
  decide

/-! ## Listing -/

/-- C5: employee B, who is not an admin, lists with the query `userId=uid-a` and
receives the request of employee A. -/
theorem list_returns_foreign_requests :
    isAdmin employeeB.email = false ∧
    getLeaveRequests scenarioEnv employeeB { userId := some "uid-a", status := none }
      (storeWithRequest "annual" 3 "pending") =
      .json 200 [("-Nreq1", requestOfA "annual" 3 "pending")] ∧
    (requestOfA "annual" 3 "pending").userId ≠ employeeB.uid := by
  decide

/-! ## Frames of creation and cancellation -/

theorem users_postLeaveRequests (env : Env) (user : AuthUser) (body : CreateBody) (db : Store) :
    (postLeaveRequests env user body db).1.users = db.users := by
  simp only [postLeaveRequests]
  repeat' (first | rfl | split)

theorem splitSlash_of_noSlash (cs : List Char) (h : '/' ∉ cs) : splitSlash cs = [cs] := by
  induction cs with
  | nil => rfl
  | cons c cs ih =>
    have hc : c ≠ '/' := fun e => h (by simp [e])
    have hcs : '/' ∉ cs := fun e => h (List.mem_cons_of_mem _ e)
    simp [splitSlash, hc, ih hcs]

/-- An id without `/` names the request stored under the id itself. -/
theorem requestKey_of_noSlash (id : String) (hne : id ≠ "") (h : '/' ∉ id.data) :
    requestKey id = some id := by
  have hd : id.data ≠ [] := by
    intro e
    apply hne
    cases id with
    | mk data =>
      simp only at e
      subst e
      rfl
  have hp : pathPieces id = [id] := by
    simp [pathPieces, splitSlash_of_noSlash _ h, List.filter, hd]
  simp [requestKey, hp]

/-- The empty id names the collection, not a request. -/
theorem requestKey_empty : requestKey "" = none := by decide

/-- The prefix `leaveRequests/` holds no character that `db.ref` refuses. -/
theorem invalidPath_requestPath (id : String) :
    invalidPath (requestPath id) = invalidPath id := by
  have hpre : invalidPath "leaveRequests/" = false := by decide
  simp only [invalidPath] at hpre
  simp only [invalidPath, requestPath, String.data_append, List.any_append, hpre,
    Bool.false_or]

theorem requestKey_of_validKey (id : String) (h : validKey id = true) :
    invalidPath id = false ∧ requestKey id = some id := by
  simp only [validKey, Bool.and_eq_true, Bool.not_eq_true', bne_iff_ne, ne_eq] at h
  obtain ⟨⟨hne, hslash⟩, hinv⟩ := h
  refine ⟨hinv, requestKey_of_noSlash id hne ?_⟩
  intro hmem
  have : id.data.contains '/' = true := by simpa using hmem
  rw [this] at hslash
  exact Bool.noConfusion hslash

/-- The two ways a cancel call ends: answered with an error and the store as it was, or
answered 200 with the addressed pending request, of the caller or seen by an admin,
removed. -/
theorem deleteLeaveRequest_cases (env : Env) (user : AuthUser) (id : String) (db : Store) :
    ((deleteLeaveRequest env user id db).1 = db ∧
      (deleteLeaveRequest env user id db).2.isError = true) ∨
    (∃ key data, invalidPath id = false ∧ requestKey id = some key ∧
      kvGet db.leaveRequests key = some data ∧
      (data.userId = user.uid ∨ isAdmin user.email = true) ∧ data.status = "pending" ∧
      (deleteLeaveRequest env user id db).1 =
        { db with leaveRequests := kvRemove db.leaveRequests key } ∧
      (deleteLeaveRequest env user id db).2 = .json 200 id) := by
  generalize hout : deleteLeaveRequest env user id db = out
  cases hinv : invalidPath id with
  | true =>
    left
    simp only [deleteLeaveRequest, invalidPath_requestPath, hinv] at hout
    split_ifs at hout <;> subst hout <;> exact ⟨rfl, rfl⟩
  | false =>
    cases hkey : requestKey id with
    | none =>
      left
      simp only [deleteLeaveRequest, invalidPath_requestPath, hinv, hkey] at hout
      split_ifs at hout <;> subst hout <;> exact ⟨rfl, rfl⟩
    | some key =>
      cases hk : kvGet db.leaveRequests key with
      | none =>
        left
        simp only [deleteLeaveRequest, invalidPath_requestPath, hinv, hkey, hk] at hout
        split_ifs at hout <;> subst hout <;> exact ⟨rfl, rfl⟩
      | some data =>
        simp only [deleteLeaveRequest, invalidPath_requestPath, hinv, hkey, hk,
          Bool.false_eq_true, if_false] at hout
        split_ifs at hout with h1 h2 h3 h4 h5
        all_goals subst hout
        · exact Or.inl ⟨rfl, rfl⟩
        · exact Or.inl ⟨rfl, rfl⟩
        · exact Or.inl ⟨rfl, rfl⟩
        · exact Or.inl ⟨rfl, rfl⟩
        · exact Or.inl ⟨rfl, rfl⟩
        · right
          refine ⟨key, data, rfl, rfl, hk, ?_, not_not.mp h4, rfl, rfl⟩
          by_cases hu : data.userId = user.uid
          · exact Or.inl hu
          · right
            cases hadm : isAdmin user.email with
            | true => rfl
            | false => exact absurd ⟨hu, by simp [hadm]⟩ h3

theorem users_deleteLeaveRequest (env : Env) (user : AuthUser) (id : String) (db : Store) :
    (deleteLeaveRequest env user id db).1.users = db.users := by
  rcases deleteLeaveRequest_cases env user id db with ⟨hsame, _⟩ |
    ⟨key, data, _, _, _, _, _, hstore, _⟩
  · rw [hsame]
  · rw [hstore]

/-! ## Balances stay non-negative -/

theorem all_kvSet {α : Type} (P : α → Bool) (l : List (String × α)) (k : String) (v : α)
    (hl : l.all (fun p => P p.2) = true) (hv : P v = true) :
    (kvSet l k v).all (fun p => P p.2) = true := by
  induction l with
  | nil => simpa [kvSet] using hv
  | cons p rest ih =>
    obtain ⟨k0, v0⟩ := p
    simp only [List.all_cons, Bool.and_eq_true] at hl
    by_cases h0 : k0 = k
    · simp [kvSet, h0, hv, hl.2]
    · simp only [kvSet, h0, if_false, List.all_cons, Bool.and_eq_true]
      exact ⟨hl.1, ih hl.2⟩

theorem all_kvGet {α : Type} (P : α → Bool) (l : List (String × α)) (k : String) (v : α)
    (hl : l.all (fun p => P p.2) = true) (hv : kvGet l k = some v) : P v = true := by
  induction l with
  | nil => simp [kvGet] at hv
  | cons p rest ih =>
    obtain ⟨k0, v0⟩ := p
    simp only [List.all_cons, Bool.and_eq_true] at hl
    by_cases h0 : k0 = k
    · simp only [kvGet, h0, if_true, Option.some.injEq] at hv
      exact hv ▸ hl.1
    · simp only [kvGet, h0, if_false] at hv
      exact ih hl.2 hv

theorem nonneg_of_getBalance (db : Store) (h : balancesNonneg db = true) (uid : String)
    (b : LeaveBalance) (hb : getBalance db uid = some b) : nonnegBalance b = true := by
  unfold getBalance at hb
  cases hu : kvGet db.users uid with
  | none => simp [hu] at hb
  | some u =>
    simp only [hu] at hb
    have := all_kvGet nonnegUser db.users uid u h hu
    simpa [nonnegUser, hb] using this

theorem nonneg_default : nonnegBalance DEFAULT_BALANCE = true := by decide

theorem nonneg_read (db : Store) (h : balancesNonneg db = true) (uid : String) :
    nonnegBalance ((getBalance db uid).getD DEFAULT_BALANCE) = true := by
  cases hb : getBalance db uid with
  | none => simpa using nonneg_default
  | some b => simpa using nonneg_of_getBalance db h uid b hb

theorem balancesNonneg_setBalance (db : Store) (h : balancesNonneg db = true) (uid : String)
    (b : LeaveBalance) (hb : nonnegBalance b = true) :
    balancesNonneg (setBalance db uid b) = true := by
  unfold balancesNonneg setBalance
  exact all_kvSet nonnegUser db.users uid _ h (by simpa [nonnegUser] using hb)

theorem nonneg_debitBalance (b : LeaveBalance) (leaveType : String) (days : Int)
    (hb : nonnegBalance b = true) : nonnegBalance (debitBalance b leaveType days) = true := by
  obtain ⟨a, s, c⟩ := b
  unfold debitBalance
  simp only [nonnegBalance, Bool.and_eq_true] at hb ⊢
  split_ifs with h1 h2 h3
  · cases a <;> simp_all
  · cases s <;> simp_all
  · cases c <;> simp_all
  · exact hb

theorem balancesNonneg_commitReview (env : Env) (user : AuthUser) (id status : String)
    (comment : Option String) (r : LeaveRequest) (db1 : Store) (h : balancesNonneg db1 = true) :
    balancesNonneg (commitReview env user id status comment r db1).1 = true := by
  unfold commitReview
  split_ifs <;> exact h

theorem balancesNonneg_step (db : Store) (op : Op) (h : balancesNonneg db = true)
    (hop : op.suppliesNonneg = true) : balancesNonneg (step db op) = true := by
  cases op with
  | register env user body =>
    simp only [step, postRegisterUser]
    split_ifs
    · exact h
    · exact h
    · exact h
    · exact h
    · exact all_kvSet nonnegUser db.users user.uid _ h (by simpa [nonnegUser] using nonneg_default)
  | setBalance env user body =>
    have hcur := nonneg_of_getBalance db h (body.userId.getD "")
    have key : balancesNonneg (updateBalance db (body.userId.getD "")
        { annual := body.annual.asNumber, sick := body.sick.asNumber,
          casual := body.casual.asNumber }) = true := by
      unfold updateBalance
      split_ifs
      · exact h
      · apply balancesNonneg_setBalance db h
        simp only [Op.suppliesNonneg, nonnegBalance, Bool.and_eq_true] at hop
        cases hg : getBalance db (body.userId.getD "") with
        | none =>
          simp only [nonnegBalance, Option.getD_none, Bool.and_eq_true]
          refine ⟨⟨?_, ?_⟩, ?_⟩
          · cases hx : body.annual.asNumber <;> simp_all
          · cases hx : body.sick.asNumber <;> simp_all
          · cases hx : body.casual.asNumber <;> simp_all
        | some cur =>
          have hc := hcur cur hg
          simp only [nonnegBalance, Bool.and_eq_true] at hc
          simp only [nonnegBalance, Option.getD_some, Bool.and_eq_true]
          refine ⟨⟨?_, ?_⟩, ?_⟩
          · cases hx : body.annual.asNumber <;> simp_all
          · cases hx : body.sick.asNumber <;> simp_all
          · cases hx : body.casual.asNumber <;> simp_all
    simp only [step, postLeaveBalance]
    split_ifs <;> first | exact h | exact key
  | create env user body =>
    simp only [step, balancesNonneg, users_postLeaveRequests]
    exact h
  | review env user id body =>
    simp only [step, patchLeaveRequest]
    cases hk : kvGet db.leaveRequests id with
    | none =>
      simp only []
      split_ifs <;> exact h
    | some data =>
      simp only []
      split_ifs
      · exact h
      · exact h
      · exact h
      · exact h
      · exact h
      · exact h
      · apply balancesNonneg_commitReview
        apply balancesNonneg_setBalance db h
        exact nonneg_debitBalance _ _ _ (nonneg_read db h _)
      · exact balancesNonneg_commitReview _ _ _ _ _ _ _ h
  | cancel env user id =>
    simp only [step, balancesNonneg, users_deleteLeaveRequest]
    exact h

theorem balancesNonneg_run (ops : List Op) (db : Store) (h : balancesNonneg db = true)
    (hops : ∀ op ∈ ops, op.suppliesNonneg = true) : balancesNonneg (run db ops) = true := by
  induction ops generalizing db with
  | nil => exact h
  | cons op rest ih =>
    have h1 := balancesNonneg_step db op h (hops op (by simp))
    exact ih (step db op) h1 (fun o ho => hops o (by simp [ho]))

/-- C6, as stated: an admin call of `setBalance` with `annual = -5` on a store whose
balances are all non-negative leaves employee A with an annual balance of -5. -/
theorem setBalance_stores_negative :
    balancesNonneg emptyRequestsStore = true ∧
    getBalance (run emptyRequestsStore
      [.setBalance scenarioEnv adminUser
        { userId := some "uid-a", annual := .number (-5), sick := .undefined,
          casual := .undefined }]) "uid-a" =
      some { annual := some (-5), sick := some 10, casual := some 8 } ∧
    balancesNonneg (run emptyRequestsStore
      [.setBalance scenarioEnv adminUser
        { userId := some "uid-a", annual := .number (-5), sick := .undefined,
          casual := .undefined }]) = false := by
  decide

/-- C6, amended: from a store in which no stored balance has a negative category, after
any sequence of register, setBalance, create, review and cancel calls in which every
number supplied to setBalance is at least 0, no stored balance has a negative category,
and the balance read for any account has none either. -/
theorem balances_stay_nonneg (db : Store) (ops : List Op) (h : balancesNonneg db = true)
    (hops : ∀ op ∈ ops, op.suppliesNonneg = true) :
    balancesNonneg (run db ops) = true ∧
    ∀ uid, nonnegBalance ((getBalance (run db ops) uid).getD DEFAULT_BALANCE) = true :=
  ⟨balancesNonneg_run ops db h hops,
    fun uid => nonneg_read (run db ops) (balancesNonneg_run ops db h hops) uid⟩

theorem balances_stay_nonneg_witness :
    balancesNonneg (run lowSickStore scenarioCalls) = true ∧
    ∀ uid, nonnegBalance ((getBalance (run lowSickStore scenarioCalls) uid).getD
      DEFAULT_BALANCE) = true :=
  balances_stay_nonneg lowSickStore scenarioCalls (by decide) (by
    intro op hop
    simp only [scenarioCalls, List.mem_cons, List.mem_singleton, List.not_mem_nil,
      or_false] at hop
    rcases hop with rfl | rfl | rfl | rfl <;> rfl)

/-! ## Cancellation -/

/-- C7, as stated, fails at an id that is not a key of the store: no request is stored
under `a.b`, yet the cancel call is answered 500, not 404, because `db.ref` throws for a
path that holds `.` and the throw is caught by the handler; the store is as it was. -/
theorem cancel_refused_id_answers_500 :
    kvGet (storeWithRequest "annual" 3 "pending").leaveRequests "a.b" = none ∧
    deleteLeaveRequest scenarioEnv employeeA "a.b" (storeWithRequest "annual" 3 "pending") =
      (storeWithRequest "annual" 3 "pending", .error 500 "") := by
  decide

/-- C7, amended: with the database working, a cancel call whose id holds a character
that the store refuses in a path is answered 500 and the store is as it was; an id that
is a key of the store holds no such character and addresses the request stored under
it; when the id addresses the request under `key`, the call is answered 200 exactly when
that request exists, the caller is its owner or an admin, and its status is `pending`,
otherwise 404 when no request is stored under `key`, else 403 when the caller is neither
owner nor admin, else 400 "Can only delete pending requests"; when the id addresses the
collection or a node below a request, the call is never answered 200: it is answered 404
when the node does not exist, else 403 to a caller who is not an admin, else 400. -/
theorem cancel_outcome (env : Env) (henv : env.healthy) (user : AuthUser) (id : String)
    (db : Store) :
    (invalidPath id = true →
      deleteLeaveRequest env user id db = (db, .error 500 env.errMessage)) ∧
    (validKey id = true → invalidPath id = false ∧ requestKey id = some id) ∧
    (invalidPath id = false → ∀ key, requestKey id = some key →
      ((deleteLeaveRequest env user id db).2 = .json 200 id ↔
        ∃ r, kvGet db.leaveRequests key = some r ∧
          (r.userId = user.uid ∨ isAdmin user.email = true) ∧ r.status = "pending") ∧
      (kvGet db.leaveRequests key = none →
        (deleteLeaveRequest env user id db).2 = .error 404 "Request not found") ∧
      (∀ r, kvGet db.leaveRequests key = some r →
        ¬ (r.userId = user.uid ∨ isAdmin user.email = true) →
        (deleteLeaveRequest env user id db).2 = .error 403 "Forbidden") ∧
      (∀ r, kvGet db.leaveRequests key = some r →
        (r.userId = user.uid ∨ isAdmin user.email = true) → r.status ≠ "pending" →
        (deleteLeaveRequest env user id db).2 =
          .error 400 "Can only delete pending requests")) ∧
    (invalidPath id = false → requestKey id = none →
      (deleteLeaveRequest env user id db).1 = db ∧
      (nodeExists db (pathPieces id) = false →
        (deleteLeaveRequest env user id db).2 = .error 404 "Request not found") ∧
      (nodeExists db (pathPieces id) = true → isAdmin user.email = false →
        (deleteLeaveRequest env user id db).2 = .error 403 "Forbidden") ∧
      (nodeExists db (pathPieces id) = true → isAdmin user.email = true →
        (deleteLeaveRequest env user id db).2 =
          .error 400 "Can only delete pending requests")) := by
  obtain ⟨hinit, hrej⟩ := henv
  refine ⟨?_, requestKey_of_validKey id, ?_, ?_⟩
  · intro hinv
    simp [deleteLeaveRequest, hinit, invalidPath_requestPath, hinv]
  · intro hinv key hkey
    cases hk : kvGet db.leaveRequests key with
    | none => simp [deleteLeaveRequest, hinit, hrej, invalidPath_requestPath, hinv, hkey, hk]
    | some r =>
      by_cases hown : r.userId = user.uid
      · by_cases hp : r.status = "pending" <;>
          simp [deleteLeaveRequest, hinit, hrej, invalidPath_requestPath, hinv, hkey, hk,
            hown, hp]
      · by_cases hadm : isAdmin user.email = true
        · by_cases hp : r.status = "pending" <;>
            simp [deleteLeaveRequest, hinit, hrej, invalidPath_requestPath, hinv, hkey, hk,
              hown, hp, hadm]
        · simp [deleteLeaveRequest, hinit, hrej, invalidPath_requestPath, hinv, hkey, hk,
            hown, hadm]
  · intro hinv hkey
    cases hn : nodeExists db (pathPieces id) <;> cases hadm : isAdmin user.email <;>
      simp [deleteLeaveRequest, hinit, hrej, invalidPath_requestPath, hinv, hkey, hn, hadm]

/-- C7, the scenario of the specification: employee B cancelling the pending request of
employee A is answered 403, the admin cancelling it is answered 200. -/
theorem cancel_outcome_witness :
    (deleteLeaveRequest scenarioEnv employeeB "-Nreq1"
      (storeWithRequest "annual" 3 "pending")).2 = .error 403 "Forbidden" ∧
    (deleteLeaveRequest scenarioEnv adminUser "-Nreq1"
      (storeWithRequest "annual" 3 "pending")).2 = .json 200 "-Nreq1" :=
  ⟨((cancel_outcome scenarioEnv scenarioEnv_healthy employeeB "-Nreq1"
      (storeWithRequest "annual" 3 "pending")).2.2.1 (by decide) "-Nreq1"
        (by decide)).2.2.1 (requestOfA "annual" 3 "pending") (by decide) (by decide),
    ((cancel_outcome scenarioEnv scenarioEnv_healthy adminUser "-Nreq1"
      (storeWithRequest "annual" 3 "pending")).2.2.1 (by decide) "-Nreq1"
        (by decide)).1.2 ⟨requestOfA "annual" 3 "pending", by decide, by decide, by decide⟩⟩

/-- C8: a cancel call that is answered without error removes the one request that its id
addresses: no request is left under that key, the request under every other key is as
it was and the users collection, with every balance, is as it was; for an id without
`/` the key is the id itself; a cancel call that is answered with an error leaves the
whole store as it was. -/
theorem cancel_frame (env : Env) (user : AuthUser) (id : String) (db : Store) :
    ((deleteLeaveRequest env user id db).2.isError = false →
      ∃ key, requestKey id = some key ∧
        kvGet (deleteLeaveRequest env user id db).1.leaveRequests key = none ∧
        (∀ id', id' ≠ key →
          kvGet (deleteLeaveRequest env user id db).1.leaveRequests id' =
            kvGet db.leaveRequests id') ∧
        (deleteLeaveRequest env user id db).1.users = db.users) ∧
    ('/' ∉ id.data → (deleteLeaveRequest env user id db).2.isError = false →
      kvGet (deleteLeaveRequest env user id db).1.leaveRequests id = none ∧
      (∀ id', id' ≠ id →
        kvGet (deleteLeaveRequest env user id db).1.leaveRequests id' =
          kvGet db.leaveRequests id') ∧
      (deleteLeaveRequest env user id db).1.users = db.users) ∧
    ((deleteLeaveRequest env user id db).2.isError = true →
      (deleteLeaveRequest env user id db).1 = db) := by
  rcases deleteLeaveRequest_cases env user id db with ⟨hsame, herr⟩ |
    ⟨key, data, _, hkey, _, _, _, hstore, hresp⟩
  · refine ⟨fun h => ?_, fun _ h => ?_, fun _ => hsame⟩
    · rw [herr] at h
      exact Bool.noConfusion h
    · rw [herr] at h
      exact Bool.noConfusion h
  · have hframe : kvGet (deleteLeaveRequest env user id db).1.leaveRequests key = none ∧
        (∀ id', id' ≠ key →
          kvGet (deleteLeaveRequest env user id db).1.leaveRequests id' =
            kvGet db.leaveRequests id') ∧
        (deleteLeaveRequest env user id db).1.users = db.users := by
      rw [hstore]
      refine ⟨by simp [kvGet_kvRemove], ?_, rfl⟩
      intro id' hne
      simp only [kvGet_kvRemove]
      rw [if_neg (fun e => hne e.symm)]
    refine ⟨fun _ => ⟨key, hkey, hframe⟩, fun hs _ => ?_, fun h => ?_⟩
    · have hne : id ≠ "" := by
        intro e
        rw [e, requestKey_empty] at hkey
        exact Option.noConfusion hkey
      have hid := requestKey_of_noSlash id hne hs
      rw [hkey] at hid
      have hkid : key = id := Option.some.inj hid
      rw [hkid] at hframe
      exact hframe
    · rw [hresp] at h
      simp [Response.isError] at h

/-! ## Approval of an unpaid request -/

/-- C9, as stated: the owner of a pending unpaid request has no balance record; after
the approval the default allocation is stored as the owner's record. -/
theorem unpaid_approval_persists_default :
    getBalance unpaidStore "uid-a" = none ∧
    getBalance (patchLeaveRequest scenarioEnv adminUser "-Nreq1"
      { status := some "approved", adminComment := none } unpaidStore).1 "uid-a" =
      some DEFAULT_BALANCE := by
  decide

/-- C9, amended: the approval of an unpaid request changes, for no account, the balance
that the read handler returns, nor a balance record that is stored, nor whether a record
is stored for an account other than the owner; for an owner without a record it stores
the default allocation. -/
theorem unpaid_approval_keeps_balances (env : Env) (henv : env.healthy) (user : AuthUser)
    (hadm : isAdmin user.email = true) (id : String) (comment : Option String) (db : Store)
    (r : LeaveRequest) (hr : kvGet db.leaveRequests id = some r)
    (hcat : r.leaveType = "unpaid") :
    (∀ env' user' uid,
      getLeaveBalance env' user' uid (patchLeaveRequest env user id
        { status := some "approved", adminComment := comment } db).1 =
        getLeaveBalance env' user' uid db) ∧
    (∀ uid b, getBalance db uid = some b →
      getBalance (patchLeaveRequest env user id
        { status := some "approved", adminComment := comment } db).1 uid = some b) ∧
    (∀ uid, uid ≠ r.userId →
      getBalance (patchLeaveRequest env user id
        { status := some "approved", adminComment := comment } db).1 uid =
        getBalance db uid) ∧
    (getBalance db r.userId = none →
      getBalance (patchLeaveRequest env user id
        { status := some "approved", adminComment := comment } db).1 r.userId =
        some DEFAULT_BALANCE) := by
  have hst : "approved" ∈ STATUSES := by simp [STATUSES]
  have hdeb : ∀ b : LeaveBalance, debitBalance b r.leaveType r.days = b := by
    intro b
    simp [debitBalance, hcat]
  have hget : ∀ uid, getBalance (patchLeaveRequest env user id
      { status := some "approved", adminComment := comment } db).1 uid =
      if r.userId = uid then some ((getBalance db r.userId).getD DEFAULT_BALANCE)
      else getBalance db uid := by
    intro uid
    rw [patchLeaveRequest_eq env henv user hadm id "approved" comment hst db r hr,
      commitReview_eq env henv]
    simp only [if_true, getBalance_withRequests, getBalance_setBalance, hdeb]
  refine ⟨?_, ?_, ?_, ?_⟩
  · intro env' user' uid
    simp only [getLeaveBalance, hget]
    by_cases h : r.userId = uid
    · subst h
      simp
    · simp [h]
  · intro uid b hb
    rw [hget]
    by_cases h : r.userId = uid
    · subst h
      simp [hb]
    · simp [h, hb]
  · intro uid hne
    rw [hget, if_neg (fun e : r.userId = uid => hne e.symm)]
  · intro hnone
    rw [hget]
    simp [hnone]

theorem unpaid_approval_keeps_balances_witness :
    getBalance (patchLeaveRequest scenarioEnv adminUser "-Nreq1"
      { status := some "approved", adminComment := none } unpaidStore).1 "uid-a" =
      some DEFAULT_BALANCE ∧
    getBalance (patchLeaveRequest scenarioEnv adminUser "-Nreq1"
      { status := some "approved", adminComment := none } unpaidStore).1 "uid-b" =
      getBalance unpaidStore "uid-b" :=
  ⟨(unpaid_approval_keeps_balances scenarioEnv scenarioEnv_healthy adminUser (by decide)
      "-Nreq1" none unpaidStore (requestOfA "unpaid" 3 "pending") (by decide)
      (by decide)).2.2.2 (by decide),
    (unpaid_approval_keeps_balances scenarioEnv scenarioEnv_healthy adminUser (by decide)
      "-Nreq1" none unpaidStore (requestOfA "unpaid" 3 "pending") (by decide)
      (by decide)).2.2.1 "uid-b" (by decide)⟩

/-! ## Creation: a start date in the past -/

theorem digitChar_toNat (n : Nat) : (digitChar n).toNat = 48 + n % 10 := by
  unfold digitChar
  have h : n % 10 < 10 := Nat.mod_lt _ (by decide)
  generalize n % 10 = k at h
  interval_cases k <;> rfl

theorem strLt_cons_same (c : Char) (as bs : List Char) :
    strLt (c :: as) (c :: bs) = strLt as bs := by
  simp [strLt]

/-- Two runs of four decimal digits compare as the numbers they write. -/
theorem strLt_four_digits (y y' : Nat) (hy : y < 10000) (hy' : y' < 10000)
    (as bs : List Char) :
    strLt (digitChar (y / 1000) :: digitChar (y / 100) :: digitChar (y / 10) :: digitChar y :: as)
      (digitChar (y' / 1000) :: digitChar (y' / 100) :: digitChar (y' / 10) :: digitChar y' :: bs)
      = if y < y' then true else if y = y' then strLt as bs else false := by
  simp only [strLt, digitChar_toNat]
  split_ifs <;> first | rfl | omega

/-- Two runs of two decimal digits compare as the numbers they write. -/
theorem strLt_two_digits (m m' : Nat) (hm : m < 100) (hm' : m' < 100) (as bs : List Char) :
    strLt (digitChar (m / 10) :: digitChar m :: as) (digitChar (m' / 10) :: digitChar m' :: bs)
      = if m < m' then true else if m = m' then strLt as bs else false := by
  simp only [strLt, digitChar_toNat]
  split_ifs <;> first | rfl | omega

/-- On dates written `YYYY-MM-DD`, the string comparison is the comparison of dates. -/
theorem jsLt_isoDate (y m d y' m' d' : Nat) (hy : y < 10000) (hy' : y' < 10000)
    (hm : m < 100) (hm' : m' < 100) (hd : d < 100) (hd' : d' < 100) :
    jsLt (isoDate y m d) (isoDate y' m' d') =
      decide (y < y' ∨ (y = y' ∧ (m < m' ∨ (m = m' ∧ d < d')))) := by
  simp only [jsLt, isoDate]
  rw [strLt_four_digits y y' hy hy', strLt_cons_same, strLt_two_digits m m' hm hm',
    strLt_cons_same, strLt_two_digits d d' hd hd']
  simp only [strLt]
  by_cases h1 : y < y'
  · simp [h1]
  · by_cases h2 : y = y'
    · subst h2
      by_cases h3 : m < m'
      · simp [h3]
      · by_cases h4 : m = m'
        · subst h4
          by_cases h5 : d < d' <;> simp [h5]
        · simp [h3, h4]
    · simp [h1, h2]

theorem daysInMonth_le (y : Int) (m : Nat) : daysInMonth y m ≤ 31 := by
  unfold daysInMonth
  split <;> first | omega | (split_ifs <;> omega)

theorem validDate_bounds (y m d : Nat) (h : validDate y m d = true) : m < 100 ∧ d < 100 := by
  simp only [validDate, Bool.and_eq_true, decide_eq_true_eq] at h
  have := daysInMonth_le y m
  omega

/-- The check of line 197 against the UTC date: when `todayStr`, the date of the current
instant in UTC, is `ty-tm-td` and the `startDate` of a create call is the calendar date
`y-m-d`, written `YYYY-MM-DD`, earlier than that date, the call is answered 400 and the
store is left as it was, whatever the other fields of the call are. -/
theorem create_rejects_past_start (env : Env) (hinit : env.firebaseInitialized = true)
    (user : AuthUser) (body : CreateBody) (db : Store) (y m d ty tm td : Nat)
    (hy : y ≤ 9999) (hty : ty ≤ 9999) (hvalid : validDate y m d = true)
    (htoday : validDate ty tm td = true) (hstart : body.startDate = some (isoDate y m d))
    (hnow : env.todayStr = isoDate ty tm td)
    (hpast : y < ty ∨ (y = ty ∧ (m < tm ∨ (m = tm ∧ d < td)))) :
    (∃ msg, (postLeaveRequests env user body db).2 = .error 400 msg) ∧
    (postLeaveRequests env user body db).1 = db := by
  obtain ⟨hm, hd⟩ := validDate_bounds y m d hvalid
  obtain ⟨htm, htd⟩ := validDate_bounds ty tm td htoday
  have hlt : jsLt (body.startDate.getD "") env.todayStr = true := by
    rw [hstart, hnow, Option.getD_some,
      jsLt_isoDate y m d ty tm td (by omega) (by omega) hm htm hd htd]
    exact decide_eq_true hpast
  simp only [postLeaveRequests, hinit, hlt, Bool.not_true, Bool.false_eq_true, if_false, if_true]
  repeat' split
  all_goals exact ⟨⟨_, rfl⟩, rfl⟩

/-- On a server in UTC on 2024-01-05 a create call with the start date 2024-01-04 is
answered 400 and nothing is stored. -/
theorem create_rejects_past_start_witness :
    (∃ msg, (postLeaveRequests scenarioEnv employeeA
      { startDate := some "2024-01-04", endDate := some "2024-01-10",
        leaveType := some "annual", reason := some "family visit" }
      emptyRequestsStore).2 = .error 400 msg) ∧
    (postLeaveRequests scenarioEnv employeeA
      { startDate := some "2024-01-04", endDate := some "2024-01-10",
        leaveType := some "annual", reason := some "family visit" }
      emptyRequestsStore).1 = emptyRequestsStore :=
  create_rejects_past_start scenarioEnv rfl employeeA _ emptyRequestsStore 2024 1 4 2024 1 5
    (by decide) (by decide) (by decide) (by decide) (by decide) (by decide) (by decide)

/-- C10: on a server at UTC+05:30, at an instant whose UTC date is 2024-01-05 while the
current day of the server is 2024-01-06, a create call whose `startDate` is 2024-01-05,
the day before the current day of the server, is answered 201 and the request is
stored: line 196 takes today from `toISOString`, the UTC date, while lines 191 and 192
read the dates of the call on the clock of the server. -/
theorem create_accepts_local_yesterday :
    eastEnv.dateParse = isoLocalTime 19800000 ∧
    utcDay eastEnv.now = dayNumber 2024 1 5 ∧
    eastEnv.todayStr = isoDate 2024 1 5 ∧
    localDay 19800000 eastEnv.now = dayNumber 2024 1 6 ∧
    jan5Body.startDate = some (isoDate 2024 1 5) ∧
    dayNumber 2024 1 5 < localDay 19800000 eastEnv.now ∧
    (postLeaveRequests eastEnv employeeA jan5Body emptyRequestsStore).2 =
      .json 201 ("-Nreq2",
        { userId := "uid-a", userEmail := "a@example.com", startDate := "2024-01-05",
          endDate := "2024-01-05", leaveType := "annual", reason := "family visit",
          days := 2, status := "pending", createdAt := 1704490200000,
          reviewedBy := none, reviewedAt := none, adminComment := none }) ∧
    (kvGet (postLeaveRequests eastEnv employeeA jan5Body emptyRequestsStore).1.leaveRequests
      "-Nreq2").map (fun r => r.startDate) = some "2024-01-05" := by
  refine ⟨rfl, ?_, ?_, ?_, ?_, ?_, ?_, ?_⟩ <;> decide

/-! ## Creation: the day count on dates written `YYYY-MM-DD` -/

theorem digitVal_digitChar (n : Nat) : digitVal (digitChar n) = some (n % 10) := by
  simp only [digitVal, digitChar_toNat]
  have h : n % 10 < 10 := Nat.mod_lt _ (by decide)
  rw [if_pos (by omega)]
  congr 1
  omega

theorem digitsVal_four (y : Nat) (hy : y < 10000) :
    digitsVal [digitChar (y / 1000), digitChar (y / 100), digitChar (y / 10), digitChar y]
      = some y := by
  simp only [digitsVal, digitVal_digitChar, List.length_cons, List.length_nil]
  congr 1
  omega

theorem digitsVal_two (m : Nat) (hm : m < 100) :
    digitsVal [digitChar (m / 10), digitChar m] = some m := by
  simp only [digitsVal, digitVal_digitChar, List.length_cons, List.length_nil]
  congr 1
  omega

theorem isoLocalTime_start (tz : Int) (y m d : Nat) (hy : y ≤ 9999)
    (hv : validDate y m d = true) :
    isoLocalTime tz (isoDate y m d ++ "T00:00:00") = some (dayNumber y m d * msPerDay - tz) := by
  obtain ⟨hm, hd⟩ := validDate_bounds y m d hv
  have hdata : (isoDate y m d ++ "T00:00:00").data =
      [digitChar (y / 1000), digitChar (y / 100), digitChar (y / 10), digitChar y, '-',
        digitChar (m / 10), digitChar m, '-', digitChar (d / 10), digitChar d,
        'T', '0', '0', ':', '0', '0', ':', '0', '0'] := rfl
  have h00 : digitsVal ['0', '0'] = some 0 := by decide
  simp only [isoLocalTime, hdata, digitsVal_four y (by omega), digitsVal_two m hm,
    digitsVal_two d hd, h00, hv]
  simp

theorem isoLocalTime_end (tz : Int) (y m d : Nat) (hy : y ≤ 9999)
    (hv : validDate y m d = true) :
    isoLocalTime tz (isoDate y m d ++ "T23:59:59") =
      some (dayNumber y m d * msPerDay + 86399000 - tz) := by
  obtain ⟨hm, hd⟩ := validDate_bounds y m d hv
  have hdata : (isoDate y m d ++ "T23:59:59").data =
      [digitChar (y / 1000), digitChar (y / 100), digitChar (y / 10), digitChar y, '-',
        digitChar (m / 10), digitChar m, '-', digitChar (d / 10), digitChar d,
        'T', '2', '3', ':', '5', '9', ':', '5', '9'] := rfl
  have h23 : digitsVal ['2', '3'] = some 23 := by decide
  have h59 : digitsVal ['5', '9'] = some 59 := by decide
  simp only [isoLocalTime, hdata, digitsVal_four y (by omega), digitsVal_two m hm,
    digitsVal_two d hd, h23, h59, hv]
  simp

theorem isoDate_ne_empty (y m d : Nat) : isoDate y m d ≠ "" := by
  intro h
  have := congrArg String.length h
  simp [isoDate, String.length] at this

/-- The day count that the create handler stores, on every accepted pair of calendar
dates: with the database working and a host parser that reads `YYYY-MM-DDTHH:mm:ss` as
local time of a zone with a fixed offset, a call with valid dates `start ≤ end`, a start
date that is not before the server day, a listed category and a non-empty reason is
answered 201 and stores `days = dayNumber end - dayNumber start + 2`, one more than the
inclusive day count. -/
theorem postLeaveRequests_days (env : Env) (henv : env.healthy) (tz : Int)
    (hparse : ∀ s t, isoLocalTime tz s = some t → env.dateParse s = some t)
    (user : AuthUser) (db : Store) (leaveType reason : String)
    (hlt : leaveType ∈ LEAVE_TYPES) (hreason : reason ≠ "")
    (ys ms ds ye me de : Nat) (hys : ys ≤ 9999) (hye : ye ≤ 9999)
    (hvs : validDate ys ms ds = true) (hve : validDate ye me de = true)
    (horder : dayNumber ys ms ds ≤ dayNumber ye me de)
    (hday : jsLt (isoDate ys ms ds) env.todayStr = false) :
    ∃ data, (postLeaveRequests env user
        { startDate := some (isoDate ys ms ds), endDate := some (isoDate ye me de),
          leaveType := some leaveType, reason := some reason } db).2 =
        .json 201 (env.pushKey, data) ∧
      kvGet (postLeaveRequests env user
        { startDate := some (isoDate ys ms ds), endDate := some (isoDate ye me de),
          leaveType := some leaveType, reason := some reason } db).1.leaveRequests
        env.pushKey = some data ∧
      data.days = dayNumber ye me de - dayNumber ys ms ds + 2 := by
  obtain ⟨hinit, hrej⟩ := henv
  have hs := hparse _ _ (isoLocalTime_start tz ys ms ds hys hvs)
  have he := hparse _ _ (isoLocalTime_end tz ye me de hye hve)
  have hne : leaveType ≠ "" := by
    rintro rfl
    simp [LEAVE_TYPES] at hlt
  have hnlt : ¬ (dayNumber ye me de * msPerDay + 86399000 - tz <
      dayNumber ys ms ds * msPerDay - tz) := by
    simp only [msPerDay]
    omega
  have hdays2 : ceilDiv (dayNumber ye me de * msPerDay + 86399000 -
      dayNumber ys ms ds * msPerDay) msPerDay + 1 =
      dayNumber ye me de - dayNumber ys ms ds + 2 := by
    simp only [ceilDiv, msPerDay]
    omega
  refine ⟨
    { userId := user.uid
      userEmail := user.email
      startDate := isoDate ys ms ds
      endDate := isoDate ye me de
      leaveType := leaveType
      reason := jsTrim reason
      days := dayNumber ye me de - dayNumber ys ms ds + 2
      status := "pending"
      createdAt := env.serverTimestamp
      reviewedBy := none
      reviewedAt := none
      adminComment := none }, ?_, ?_, rfl⟩
  · simp [postLeaveRequests, hinit, hrej, truthy, isoDate_ne_empty, hne, hreason, hlt,
      hs, he, hnlt, hday, hdays2]
  · simp [postLeaveRequests, hinit, hrej, truthy, isoDate_ne_empty, hne, hreason, hlt,
      hs, he, hnlt, hday, hdays2, kvGet_kvSet]

/-! ## Creation: the reason -/

/-- C11: a create call whose reason is three blanks, empty after trimming, is answered
201 and stores a request whose reason is the empty string. -/
theorem create_accepts_blank_reason :
    jsTrim "   " = "" ∧
    (postLeaveRequests scenarioEnv employeeA
      { startDate := some "2024-01-10", endDate := some "2024-01-12",
        leaveType := some "annual", reason := some "   " }
      emptyRequestsStore).2.isError = false ∧
    (kvGet (postLeaveRequests scenarioEnv employeeA
      { startDate := some "2024-01-10", endDate := some "2024-01-12",
        leaveType := some "annual", reason := some "   " }
      emptyRequestsStore).1.leaveRequests "-Nreq2").map (fun r => r.reason) = some "" := by
  decide

/-! ## Calendar: day numbers follow the order of dates -/

theorem daysBeforeMonth_succ (y : Int) (m : Nat) :
    daysBeforeMonth y (m + 1) = daysBeforeMonth y m + daysInMonth y m := by
  simp [daysBeforeMonth, List.range_succ]

theorem daysBeforeMonth_mono (y : Int) (a b : Nat) (h : a ≤ b) :
    daysBeforeMonth y a ≤ daysBeforeMonth y b := by
  induction h with
  | refl => exact Nat.le_refl _
  | step _ ih =>
    rw [daysBeforeMonth_succ]
    omega

theorem daysBeforeMonth_thirteen (y : Int) :
    daysBeforeMonth y 13 = if isLeapYear y then 366 else 365 := by
  simp only [daysBeforeMonth_succ, daysBeforeMonth, List.range_zero, List.map_nil,
    List.sum_nil, daysInMonth]
  split_ifs <;> rfl

theorem dayFromYear_succ (y : Int) :
    dayFromYear (y + 1) = dayFromYear y + (if isLeapYear y then 366 else 365) := by
  simp only [dayFromYear, isLeapYear, Bool.or_eq_true, Bool.and_eq_true, beq_iff_eq,
    bne_iff_ne, ne_eq]
  split_ifs with h <;> omega

theorem dayFromYear_mono (a b : Int) (h : a ≤ b) : dayFromYear a ≤ dayFromYear b := by
  simp only [dayFromYear]
  omega

/-- The last day of a year precedes the first day of the next one: a valid date of year
`y` has a day number below `dayFromYear (y + 1)`. -/
theorem dayNumber_lt_next_year (y m d : Nat) (hv : validDate y m d = true) :
    dayNumber y m d < dayFromYear ((y : Int) + 1) := by
  simp only [validDate, Bool.and_eq_true, decide_eq_true_eq] at hv
  have h1 := daysBeforeMonth_succ y m
  have h2 := daysBeforeMonth_mono y (m + 1) 13 (by omega)
  have h3 := daysBeforeMonth_thirteen y
  have h4 := dayFromYear_succ y
  simp only [dayNumber]
  split_ifs at h3 h4 <;> omega

/-- The day number is strictly increasing in the order of calendar dates. -/
theorem dayNumber_lt (y m d y' m' d' : Nat) (hv : validDate y m d = true)
    (hv' : validDate y' m' d' = true)
    (h : y < y' ∨ (y = y' ∧ (m < m' ∨ (m = m' ∧ d < d')))) :
    dayNumber y m d < dayNumber y' m' d' := by
  rcases h with h | ⟨rfl, h | ⟨rfl, h⟩⟩
  · have h1 := dayNumber_lt_next_year y m d hv
    have h2 := dayFromYear_mono ((y : Int) + 1) y' (by omega)
    simp only [validDate, Bool.and_eq_true, decide_eq_true_eq] at hv'
    simp only [dayNumber] at h1 ⊢
    omega
  · simp only [validDate, Bool.and_eq_true, decide_eq_true_eq] at hv hv'
    have h1 := daysBeforeMonth_succ y m
    have h2 := daysBeforeMonth_mono y (m + 1) m' (by omega)
    simp only [dayNumber]
    omega
  · simp only [dayNumber]
    omega

/-! ## Creation: inverted ranges -/

/-- C12: with a host parser that reads `YYYY-MM-DDTHH:mm:ss` as local time of a zone
with a fixed offset, a create call whose `startDate` and `endDate` are valid calendar
dates written `YYYY-MM-DD` with the end date earlier than the start date is answered 400
and leaves the store as it was, whatever its other fields are; and when the end date is
not earlier than the start date the answer is never the 400 "Invalid dates" of the date
check, so that check rejects exactly the inverted ranges. -/
theorem create_rejects_inverted_range (env : Env) (hinit : env.firebaseInitialized = true)
    (tz : Int) (hparse : ∀ s t, isoLocalTime tz s = some t → env.dateParse s = some t)
    (user : AuthUser) (body : CreateBody) (db : Store) (ys ms ds ye me de : Nat)
    (hys : ys ≤ 9999) (hye : ye ≤ 9999) (hvs : validDate ys ms ds = true)
    (hve : validDate ye me de = true) (hstart : body.startDate = some (isoDate ys ms ds))
    (hend : body.endDate = some (isoDate ye me de)) :
    ((ye < ys ∨ (ye = ys ∧ (me < ms ∨ (me = ms ∧ de < ds)))) →
      (∃ msg, (postLeaveRequests env user body db).2 = .error 400 msg) ∧
      (postLeaveRequests env user body db).1 = db) ∧
    (¬ (ye < ys ∨ (ye = ys ∧ (me < ms ∨ (me = ms ∧ de < ds)))) →
      (postLeaveRequests env user body db).2 ≠ .error 400 "Invalid dates") := by
  have hs := hparse _ _ (isoLocalTime_start tz ys ms ds hys hvs)
  have he := hparse _ _ (isoLocalTime_end tz ye me de hye hve)
  constructor
  · intro hinv
    have hlt := dayNumber_lt ye me de ys ms ds hve hvs hinv
    have hcmp : dayNumber ye me de * msPerDay + 86399000 - tz <
        dayNumber ys ms ds * msPerDay - tz := by
      simp only [msPerDay]
      omega
    simp only [postLeaveRequests, hinit, hstart, hend, Option.getD_some, hs, he, hcmp,
      Bool.not_true, Bool.false_eq_true, if_false, if_true]
    repeat' split
    all_goals exact ⟨⟨_, rfl⟩, rfl⟩
  · intro hninv
    have hle : dayNumber ys ms ds ≤ dayNumber ye me de := by
      by_cases heq : ys = ye ∧ ms = me ∧ ds = de
      · obtain ⟨rfl, rfl, rfl⟩ := heq
        exact le_refl _
      · exact le_of_lt (dayNumber_lt ys ms ds ye me de hvs hve (by omega))
    have hcmp : ¬ (dayNumber ye me de * msPerDay + 86399000 - tz <
        dayNumber ys ms ds * msPerDay - tz) := by
      simp only [msPerDay]
      omega
    simp only [postLeaveRequests, hinit, hstart, hend, Option.getD_some, hs, he, hcmp,
      Bool.not_true, Bool.false_eq_true, if_false, if_true]
    repeat' split
    all_goals simp

theorem create_rejects_inverted_range_witness :
    (∃ msg, (postLeaveRequests scenarioEnv employeeA
      { startDate := some "2024-01-12", endDate := some "2024-01-10",
        leaveType := some "annual", reason := some "family visit" }
      emptyRequestsStore).2 = .error 400 msg) ∧
    (postLeaveRequests scenarioEnv employeeA
      { startDate := some "2024-01-12", endDate := some "2024-01-10",
        leaveType := some "annual", reason := some "family visit" }
      emptyRequestsStore).1 = emptyRequestsStore :=
  (create_rejects_inverted_range scenarioEnv rfl 0 (fun _ _ h => h) employeeA _
    emptyRequestsStore 2024 1 12 2024 1 10 (by decide) (by decide) (by decide) (by decide)
    (by decide) (by decide)).1 (by decide)

/-! ## Creation: what a call writes -/

theorem ceilDiv_nonneg (x : Int) (h : 0 ≤ x) : 0 ≤ ceilDiv x msPerDay := by
  simp only [ceilDiv, msPerDay]
  omega

/-- A create call either leaves the store as it was and answers with an error, or passes
every check and writes `newRequest` with a day count of at least 1 under the push key;
the answer is then 201 with that record, or 500 when the read after the write rejects. -/
theorem postLeaveRequests_cases (env : Env) (user : AuthUser) (body : CreateBody) (db : Store) :
    ((postLeaveRequests env user body db).1 = db ∧
      (postLeaveRequests env user body db).2.isError = true) ∨
    ∃ days : Int, 1 ≤ days ∧
      truthy body.startDate = true ∧ truthy body.endDate = true ∧
      truthy body.leaveType = true ∧ truthy body.reason = true ∧
      LEAVE_TYPES.contains (body.leaveType.getD "") = true ∧
      (postLeaveRequests env user body db).1 =
        { db with
          leaveRequests := kvSet db.leaveRequests env.pushKey (newRequest env user body days) } ∧
      ((postLeaveRequests env user body db).2 =
          .json 201 (env.pushKey, newRequest env user body days) ∨
        (postLeaveRequests env user body db).2 = .error 500 env.errMessage) := by
  simp only [postLeaveRequests]
  by_cases h0 : env.firebaseInitialized = true
  swap
  · left
    simp [h0, Response.isError]
  by_cases ha : truthy body.startDate = true
  swap
  · left
    simp [h0, ha, Response.isError]
  by_cases hb : truthy body.endDate = true
  swap
  · left
    simp [h0, hb, Response.isError]
  by_cases hc : truthy body.leaveType = true
  swap
  · left
    simp [h0, hc, Response.isError]
  by_cases hd : truthy body.reason = true
  swap
  · left
    simp [h0, hd, Response.isError]
  by_cases hmem : body.leaveType.getD "" ∈ LEAVE_TYPES
  swap
  · left
    simp [h0, ha, hb, hc, hd, hmem, Response.isError]
  have h2 : LEAVE_TYPES.contains (body.leaveType.getD "") = true := by simpa using hmem
  simp only [h0, ha, hb, hc, hd, h2, Bool.not_true, Bool.or_self, Bool.false_eq_true,
    if_false]
  cases hs : env.dateParse (body.startDate.getD "" ++ "T00:00:00") with
  | none =>
    left
    simp [Response.isError]
  | some start =>
    cases he : env.dateParse (body.endDate.getD "" ++ "T23:59:59") with
    | none =>
      left
      simp [Response.isError]
    | some end_ =>
      simp only []
      by_cases h3 : end_ < start
      · left
        simp [h3, Response.isError]
      by_cases h4 : jsLt (body.startDate.getD "") env.todayStr = true
      · left
        simp [h3, h4, Response.isError]
      by_cases h5 : env.rejects (.set (requestPath env.pushKey)) = true
      · left
        simp [h3, h4, h5, Response.isError]
      right
      refine ⟨ceilDiv (end_ - start) msPerDay + 1, ?_, trivial, trivial, trivial, trivial,
        trivial, ?_, ?_⟩
      · have := ceilDiv_nonneg (end_ - start) (by omega)
        omega
      · by_cases h6 : env.rejects (.once (requestPath env.pushKey)) = true <;>
          simp [h3, h4, h5, h6, newRequest]
      · by_cases h6 : env.rejects (.once (requestPath env.pushKey)) = true <;>
          simp [h3, h4, h5, h6, newRequest]

/-! ## Which requests a call leaves in the store -/

theorem all_kvRemove {α : Type} (P : α → Bool) (l : List (String × α)) (k : String)
    (hl : l.all (fun p => P p.2) = true) : (kvRemove l k).all (fun p => P p.2) = true := by
  induction l with
  | nil => simp [kvRemove]
  | cons p rest ih =>
    obtain ⟨k0, v0⟩ := p
    simp only [List.all_cons, Bool.and_eq_true] at hl
    by_cases h0 : k0 = k
    · simpa [kvRemove, h0] using ih hl.2
    · simp only [kvRemove, h0, if_false, List.all_cons, Bool.and_eq_true]
      exact ⟨hl.1, ih hl.2⟩

theorem leaveRequests_postRegisterUser (env : Env) (user : AuthUser) (body : RegisterBody)
    (db : Store) : (postRegisterUser env user body db).1.leaveRequests = db.leaveRequests := by
  simp only [postRegisterUser]
  repeat' (first | rfl | split)

theorem leaveRequests_updateBalance (db : Store) (uid : String) (updates : LeaveBalance) :
    (updateBalance db uid updates).leaveRequests = db.leaveRequests := by
  simp only [updateBalance]
  split <;> rfl

theorem leaveRequests_postLeaveBalance (env : Env) (user : AuthUser) (body : BalanceBody)
    (db : Store) : (postLeaveBalance env user body db).1.leaveRequests = db.leaveRequests := by
  simp only [postLeaveBalance]
  repeat' (first | rfl | exact leaveRequests_updateBalance _ _ _ | split)

/-- A review call leaves the requests as they were, or rewrites the request under `id`
with the new status, reviewer, review time and, when one is given, comment. -/
theorem patchLeaveRequest_requests (env : Env) (user : AuthUser) (id : String)
    (body : ReviewBody) (db : Store) :
    (patchLeaveRequest env user id body db).1.leaveRequests = db.leaveRequests ∨
    ∃ data, kvGet db.leaveRequests id = some data ∧
      (patchLeaveRequest env user id body db).1.leaveRequests =
        kvSet db.leaveRequests id
          { data with
            status := body.status.getD ""
            reviewedBy := some user.email
            reviewedAt := some env.serverTimestamp
            adminComment := match body.adminComment with
              | some c => some c
              | none => data.adminComment } := by
  generalize hout : patchLeaveRequest env user id body db = out
  cases hk : kvGet db.leaveRequests id with
  | none =>
    left
    simp only [patchLeaveRequest, hk] at hout
    split_ifs at hout <;> subst hout <;> rfl
  | some data =>
    simp only [patchLeaveRequest, commitReview, hk] at hout
    split_ifs at hout <;> subst hout
    all_goals first
      | (left; rfl)
      | (right; exact ⟨data, rfl, rfl⟩)

theorem deleteLeaveRequest_requests (env : Env) (user : AuthUser) (id : String) (db : Store) :
    (deleteLeaveRequest env user id db).1.leaveRequests = db.leaveRequests ∨
    ∃ key, (deleteLeaveRequest env user id db).1.leaveRequests =
      kvRemove db.leaveRequests key := by
  rcases deleteLeaveRequest_cases env user id db with ⟨hsame, _⟩ |
    ⟨key, data, _, _, _, _, _, hstore, _⟩
  · left
    rw [hsame]
  · right
    exact ⟨key, by rw [hstore]⟩

/-- A property of requests that a review does not touch and that every record written by
create has, holds of every stored request after a call if it held before. -/
theorem allRequests_step (P : LeaveRequest → Bool)
    (hrev : ∀ (r : LeaveRequest) st rb ra ac,
      P { r with status := st, reviewedBy := rb, reviewedAt := ra, adminComment := ac } = P r)
    (hnew : ∀ env user body (days : Int), 1 ≤ days →
      LEAVE_TYPES.contains (body.leaveType.getD "") = true →
      P (newRequest env user body days) = true)
    (db : Store) (op : Op) (h : allRequests P db = true) : allRequests P (step db op) = true := by
  cases op with
  | register env user body =>
    simp only [step, allRequests, leaveRequests_postRegisterUser]
    exact h
  | setBalance env user body =>
    simp only [step, allRequests, leaveRequests_postLeaveBalance]
    exact h
  | create env user body =>
    simp only [step]
    rcases postLeaveRequests_cases env user body db with ⟨hsame, _⟩ |
      ⟨days, hdays, _, _, _, _, hcat, hstore, _⟩
    · rw [hsame]
      exact h
    · rw [hstore]
      exact all_kvSet P db.leaveRequests env.pushKey _ h (hnew env user body days hdays hcat)
  | review env user id body =>
    simp only [step, allRequests]
    rcases patchLeaveRequest_requests env user id body db with hsame | ⟨data, hk, hstore⟩
    · rw [hsame]
      exact h
    · rw [hstore]
      refine all_kvSet P db.leaveRequests id _ h ?_
      rw [hrev]
      exact all_kvGet P db.leaveRequests id data h hk
  | cancel env user id =>
    simp only [step, allRequests]
    rcases deleteLeaveRequest_requests env user id db with hsame | ⟨key, hstore⟩
    · rw [hsame]
      exact h
    · rw [hstore]
      exact all_kvRemove P db.leaveRequests key h

theorem allRequests_run (P : LeaveRequest → Bool)
    (hrev : ∀ (r : LeaveRequest) st rb ra ac,
      P { r with status := st, reviewedBy := rb, reviewedAt := ra, adminComment := ac } = P r)
    (hnew : ∀ env user body (days : Int), 1 ≤ days →
      LEAVE_TYPES.contains (body.leaveType.getD "") = true →
      P (newRequest env user body days) = true)
    (ops : List Op) (db : Store) (h : allRequests P db = true) :
    allRequests P (run db ops) = true := by
  induction ops generalizing db with
  | nil => exact h
  | cons op rest ih => exact ih (step db op) (allRequests_step P hrev hnew db op h)

/-! ## Creation: category, written record, day count -/

theorem listedCategory_review (r : LeaveRequest) (st : String) (rb : Option String)
    (ra : Option Nat) (ac : Option String) :
    listedCategory
      { r with status := st, reviewedBy := rb, reviewedAt := ra, adminComment := ac } =
      listedCategory r := rfl

theorem positiveDays_review (r : LeaveRequest) (st : String) (rb : Option String)
    (ra : Option Nat) (ac : Option String) :
    positiveDays
      { r with status := st, reviewedBy := rb, reviewedAt := ra, adminComment := ac } =
      positiveDays r := rfl

/-- C13: a create call whose `leaveType` is missing or is not one of annual, sick,
casual, unpaid is answered 400 and leaves the store as it was; and if every stored
request has a listed category, so has every stored request after any sequence of
calls. -/
theorem create_rejects_unlisted_category (env : Env) (hinit : env.firebaseInitialized = true)
    (user : AuthUser) (body : CreateBody) (db : Store)
    (hcat : ∀ lt, body.leaveType = some lt → lt ∉ LEAVE_TYPES) :
    ((∃ msg, (postLeaveRequests env user body db).2 = .error 400 msg) ∧
      (postLeaveRequests env user body db).1 = db) ∧
    ∀ db0 ops, allRequests listedCategory db0 = true →
      allRequests listedCategory (run db0 ops) = true := by
  constructor
  · cases hlt : body.leaveType with
    | none =>
      simp only [postLeaveRequests, hinit, hlt, truthy, Bool.not_true, Bool.not_false,
        Bool.or_true, Bool.true_or, Bool.false_eq_true, if_false, if_true]
      exact ⟨⟨_, rfl⟩, trivial⟩
    | some lt =>
      have hc : LEAVE_TYPES.contains lt = false := by simpa using hcat lt hlt
      simp only [postLeaveRequests, hinit, hlt, hc, Option.getD_some, Bool.not_true,
        Bool.not_false, Bool.false_eq_true, if_false, if_true]
      split_ifs <;> exact ⟨⟨_, rfl⟩, rfl⟩
  · intro db0 ops h
    exact allRequests_run listedCategory listedCategory_review
      (fun _ _ _ _ _ hc => hc) ops db0 h

theorem create_rejects_unlisted_category_witness :
    (∃ msg, (postLeaveRequests scenarioEnv employeeA maternityBody
      emptyRequestsStore).2 = .error 400 msg) ∧
    (postLeaveRequests scenarioEnv employeeA maternityBody emptyRequestsStore).1 =
      emptyRequestsStore :=
  (create_rejects_unlisted_category scenarioEnv rfl employeeA maternityBody emptyRequestsStore
    (by
      intro lt h
      have : lt = "maternity" := by
        simpa [maternityBody] using h.symm
      subst this
      decide)).1

theorem eq_some_of_truthy (o : Option String) (h : truthy o = true) : o = some (o.getD "") := by
  cases o with
  | none => simp [truthy] at h
  | some s => rfl

theorem length_kvSet_of_absent {α : Type} (l : List (String × α)) (k : String) (v : α)
    (h : kvGet l k = none) : (kvSet l k v).length = l.length + 1 := by
  induction l with
  | nil => simp [kvSet]
  | cons p rest ih =>
    obtain ⟨k0, v0⟩ := p
    by_cases h0 : k0 = k
    · simp [kvGet, h0] at h
    · simp only [kvGet, h0, if_false] at h
      simp [kvSet, h0, ih h]

/-- C14: a create call that is answered without error, with a push key that is not yet
in use, is answered 201 with a record that is stored under the push key; the record has
status `pending`, the uid of the caller as `userId`, the category and the dates of the
body and the trimmed reason of the body; the store holds one request more, the request
under every other id is as it was, and the users collection, with every balance, is as
it was. -/
theorem create_adds_one_pending_request (env : Env) (user : AuthUser) (body : CreateBody)
    (db : Store) (hfresh : kvGet db.leaveRequests env.pushKey = none)
    (hsucc : (postLeaveRequests env user body db).2.isError = false) :
    ∃ data, (postLeaveRequests env user body db).2 = .json 201 (env.pushKey, data) ∧
      kvGet (postLeaveRequests env user body db).1.leaveRequests env.pushKey = some data ∧
      data.status = "pending" ∧ data.userId = user.uid ∧
      body.leaveType = some data.leaveType ∧ body.startDate = some data.startDate ∧
      body.endDate = some data.endDate ∧
      (∃ reason, body.reason = some reason ∧ data.reason = jsTrim reason) ∧
      (postLeaveRequests env user body db).1.leaveRequests.length =
        db.leaveRequests.length + 1 ∧
      (∀ id, id ≠ env.pushKey →
        kvGet (postLeaveRequests env user body db).1.leaveRequests id =
          kvGet db.leaveRequests id) ∧
      (postLeaveRequests env user body db).1.users = db.users := by
  rcases postLeaveRequests_cases env user body db with ⟨_, herr⟩ |
    ⟨days, _, ha, hb, hc, hd, _, hstore, hresp⟩
  · rw [herr] at hsucc
    exact absurd hsucc (by simp)
  · rcases hresp with hresp | hresp
    · refine ⟨newRequest env user body days, hresp, ?_, rfl, rfl, eq_some_of_truthy _ hc,
        eq_some_of_truthy _ ha, eq_some_of_truthy _ hb,
        ⟨body.reason.getD "", eq_some_of_truthy _ hd, rfl⟩, ?_, ?_, ?_⟩
      · rw [hstore]
        simp [kvGet_kvSet]
      · rw [hstore]
        exact length_kvSet_of_absent _ _ _ hfresh
      · intro id hne
        rw [hstore]
        simp only [kvGet_kvSet]
        rw [if_neg (fun e => hne e.symm)]
      · rw [hstore]
    · rw [hresp] at hsucc
      exact absurd hsucc (by simp [Response.isError])

theorem create_adds_one_pending_request_witness :
    ∃ data, (postLeaveRequests scenarioEnv employeeA annualBody emptyRequestsStore).2 =
        .json 201 (scenarioEnv.pushKey, data) ∧
      kvGet (postLeaveRequests scenarioEnv employeeA annualBody
        emptyRequestsStore).1.leaveRequests scenarioEnv.pushKey = some data ∧
      data.status = "pending" ∧ data.userId = employeeA.uid ∧
      annualBody.leaveType = some data.leaveType ∧
      annualBody.startDate = some data.startDate ∧
      annualBody.endDate = some data.endDate ∧
      (∃ reason, annualBody.reason = some reason ∧ data.reason = jsTrim reason) ∧
      (postLeaveRequests scenarioEnv employeeA annualBody
        emptyRequestsStore).1.leaveRequests.length =
        emptyRequestsStore.leaveRequests.length + 1 ∧
      (∀ id, id ≠ scenarioEnv.pushKey →
        kvGet (postLeaveRequests scenarioEnv employeeA annualBody
          emptyRequestsStore).1.leaveRequests id =
          kvGet emptyRequestsStore.leaveRequests id) ∧
      (postLeaveRequests scenarioEnv employeeA annualBody emptyRequestsStore).1.users =
        emptyRequestsStore.users :=
  create_adds_one_pending_request scenarioEnv employeeA annualBody emptyRequestsStore
    (by decide) (by decide)

/-- C15: the record of a create call that is answered 201 has a day count of at least
1 and is the record stored under the returned key; and if every stored request has a day
count of at least 1, so has every stored request after any sequence of calls. -/
theorem created_days_positive (env : Env) (user : AuthUser) (body : CreateBody) (db : Store)
    (key : String) (data : LeaveRequest)
    (hresp : (postLeaveRequests env user body db).2 = .json 201 (key, data)) :
    (1 ≤ data.days ∧
      kvGet (postLeaveRequests env user body db).1.leaveRequests key = some data) ∧
    ∀ db0 ops, allRequests positiveDays db0 = true →
      allRequests positiveDays (run db0 ops) = true := by
  constructor
  · rcases postLeaveRequests_cases env user body db with ⟨_, herr⟩ |
      ⟨days, hdays, _, _, _, _, _, hstore, hr⟩
    · rw [hresp] at herr
      exact absurd herr (by simp [Response.isError])
    · rcases hr with hr | hr
      · rw [hresp] at hr
        simp only [Response.json.injEq, Prod.mk.injEq, true_and] at hr
        obtain ⟨rfl, rfl⟩ := hr
        refine ⟨hdays, ?_⟩
        rw [hstore]
        simp [kvGet_kvSet]
      · rw [hresp] at hr
        exact absurd hr (by simp)
  · intro db0 ops h
    exact allRequests_run positiveDays positiveDays_review
      (fun _ _ _ days hdays _ => by simpa [positiveDays, newRequest] using hdays) ops db0 h

theorem created_days_positive_witness :
    1 ≤ (newRequest scenarioEnv employeeA annualBody 4).days ∧
    kvGet (postLeaveRequests scenarioEnv employeeA annualBody
      emptyRequestsStore).1.leaveRequests scenarioEnv.pushKey =
      some (newRequest scenarioEnv employeeA annualBody 4) :=
  (created_days_positive scenarioEnv employeeA annualBody emptyRequestsStore
    scenarioEnv.pushKey (newRequest scenarioEnv employeeA annualBody 4) (by decide)).1

/-! ## Listing: order and content -/

theorem childLe_createdAt (a b : String × LeaveRequest) (h : childLe a b = true) :
    a.2.createdAt ≤ b.2.createdAt := by
  simp only [childLe, Bool.or_eq_true, Bool.and_eq_true, decide_eq_true_eq, beq_iff_eq] at h
  omega

theorem createdAt_of_not_childLe (a b : String × LeaveRequest) (h : ¬ childLe a b = true) :
    b.2.createdAt ≤ a.2.createdAt := by
  simp only [childLe, Bool.or_eq_true, Bool.and_eq_true, decide_eq_true_eq, beq_iff_eq,
    not_or] at h
  omega

/-- Inserting a child at its place keeps the list in ascending order of `createdAt`. -/
theorem pairwise_orderedInsert (a : String × LeaveRequest) (l : List (String × LeaveRequest))
    (h : l.Pairwise (fun x y => x.2.createdAt ≤ y.2.createdAt)) :
    (l.orderedInsert (fun a b => childLe a b = true) a).Pairwise
      (fun x y => x.2.createdAt ≤ y.2.createdAt) := by
  induction l with
  | nil => simp [List.orderedInsert]
  | cons b rest ih =>
    rw [List.pairwise_cons] at h
    simp only [List.orderedInsert]
    split_ifs with hab
    · have hle := childLe_createdAt a b hab
      refine List.pairwise_cons.2 ⟨?_, List.pairwise_cons.2 h⟩
      intro x hx
      rcases List.mem_cons.1 hx with rfl | hx
      · exact hle
      · exact le_trans hle (h.1 x hx)
    · have hle := createdAt_of_not_childLe a b hab
      refine List.pairwise_cons.2 ⟨?_, ih h.2⟩
      intro x hx
      rcases (List.mem_orderedInsert _).1 hx with rfl | hx
      · exact hle
      · exact h.1 x hx

/-- The children as `orderByChild("createdAt")` delivers them are in ascending order of
`createdAt`. -/
theorem pairwise_orderByCreatedAt (l : List (String × LeaveRequest)) :
    (orderByCreatedAt l).Pairwise (fun x y => x.2.createdAt ≤ y.2.createdAt) := by
  induction l with
  | nil => simp [orderByCreatedAt]
  | cons a rest ih =>
    simp only [orderByCreatedAt, List.insertionSort] at ih ⊢
    exact pairwise_orderedInsert a _ ih

theorem perm_orderByCreatedAt (l : List (String × LeaveRequest)) :
    (orderByCreatedAt l).Perm l :=
  List.perm_insertionSort _ l

/-- With the database working, the list handler answers with the stored requests in
descending order of delivery, filtered by `appliedFilter`. -/
theorem getLeaveRequests_eq (env : Env) (henv : env.healthy) (user : AuthUser)
    (query : ListQuery) (db : Store) :
    getLeaveRequests env user query db =
      .json 200 ((orderByCreatedAt db.leaveRequests).reverse.filter
        (fun p => appliedFilter user query p.2)) := by
  obtain ⟨hinit, hrej⟩ := henv
  simp only [getLeaveRequests, hinit, hrej, appliedFilter, Bool.not_true, Bool.false_eq_true,
    if_false]
  congr 1
  by_cases hu : truthy (if truthy query.userId = true then query.userId
      else if isAdmin user.email = true then none else some user.uid) = true <;>
    by_cases hs : truthy query.status = true <;>
    simp [hu, hs, List.filter_filter, Bool.and_comm]

/-- The filter of the code is the filter of the specification for an admin and for a
caller who supplies no owner or their own uid, when no supplied value is empty. -/
theorem appliedFilter_eq_specFilter (user : AuthUser) (query : ListQuery) (r : LeaveRequest)
    (huid : user.uid ≠ "") (howner : query.userId ≠ some "") (hstatus : query.status ≠ some "")
    (hown : isAdmin user.email = true ∨ query.userId = none ∨ query.userId = some user.uid) :
    appliedFilter user query r = specFilter user query r := by
  have hnone : truthy none = false := rfl
  have hsome : ∀ x : String, x ≠ "" → truthy (some x) = true := by
    intro x hx
    simp [truthy, hx]
  have hu := hsome user.uid huid
  obtain ⟨owner, status⟩ := query
  cases owner with
  | none =>
    cases status with
    | none =>
      cases hadm : isAdmin user.email <;>
        simp [appliedFilter, specFilter, hadm, hnone, hu]
    | some st =>
      have hst := hsome st (fun e => hstatus (by rw [e]))
      cases hadm : isAdmin user.email <;>
        simp [appliedFilter, specFilter, hadm, hnone, hu, hst]
  | some o =>
    have ho := hsome o (fun e => howner (by rw [e]))
    have hcase : isAdmin user.email = true ∨ o = user.uid := by
      rcases hown with h | h | h
      · exact Or.inl h
      · exact Option.noConfusion h
      · exact Or.inr (Option.some.inj h)
    cases status with
    | none =>
      rcases hcase with hadm | hou
      · simp [appliedFilter, specFilter, hadm, hnone, ho]
      · subst hou
        cases hadm : isAdmin user.email <;>
          simp [appliedFilter, specFilter, hadm, hnone, ho]
    | some st =>
      have hst := hsome st (fun e => hstatus (by rw [e]))
      rcases hcase with hadm | hou
      · simp [appliedFilter, specFilter, hadm, ho, hst]
      · subst hou
        cases hadm : isAdmin user.email <;>
          simp [appliedFilter, specFilter, hadm, ho, hst]

/-- With the database working, the list handler answers 200 with a list that is in
descending order of `createdAt` and that holds exactly the stored requests that pass
the filter of the code, each as often as it is stored; for an admin, and for a caller
who supplies no owner or their own uid, these are the requests that pass the filter of
the specification; an admin who supplies no filter receives all stored requests. -/
theorem list_sorted_and_filtered (env : Env) (henv : env.healthy) (user : AuthUser)
    (query : ListQuery) (db : Store) :
    ∃ result, getLeaveRequests env user query db = .json 200 result ∧
      result.Pairwise (fun a b => b.2.createdAt ≤ a.2.createdAt) ∧
      result.Perm (db.leaveRequests.filter (fun p => appliedFilter user query p.2)) ∧
      (user.uid ≠ "" → query.userId ≠ some "" → query.status ≠ some "" →
        (isAdmin user.email = true ∨ query.userId = none ∨ query.userId = some user.uid) →
        result.Perm (db.leaveRequests.filter (fun p => specFilter user query p.2))) ∧
      (isAdmin user.email = true → truthy query.userId = false →
        truthy query.status = false → result.Perm db.leaveRequests) := by
  have hperm : ((orderByCreatedAt db.leaveRequests).reverse.filter
      (fun p => appliedFilter user query p.2)).Perm
      (db.leaveRequests.filter (fun p => appliedFilter user query p.2)) := by
    apply List.Perm.filter
    exact (List.reverse_perm _).trans (perm_orderByCreatedAt db.leaveRequests)
  refine ⟨_, getLeaveRequests_eq env henv user query db, ?_, hperm, ?_, ?_⟩
  · apply List.Pairwise.filter
    rw [List.pairwise_reverse]
    exact pairwise_orderByCreatedAt db.leaveRequests
  · intro huid howner hstatus hown
    have hfun : (fun p : String × LeaveRequest => appliedFilter user query p.2) =
        (fun p => specFilter user query p.2) := by
      funext p
      exact appliedFilter_eq_specFilter user query p.2 huid howner hstatus hown
    rw [← hfun]
    exact hperm
  · intro hadm hu hs
    have hall : ∀ p : String × LeaveRequest, appliedFilter user query p.2 = true := by
      intro p
      simp only [appliedFilter, hadm, hu, hs, Bool.false_eq_true, if_false, if_true]
      simp [truthy]
    rw [List.filter_eq_self.2 (fun p _ => hall p)]
    exact (List.reverse_perm _).trans (perm_orderByCreatedAt db.leaveRequests)

/-- C16: on a store with two requests of employee A and one of employee B, employee B,
who is not an admin, lists with the query `userId=uid-a`; the answer is in descending
order of `createdAt`, but it holds the two requests of employee A, which do not pass the
filter of the specification, and it does not hold the request of employee B, the only
one that passes it. -/
theorem list_content_misses_restriction :
    isAdmin employeeB.email = false ∧
    getLeaveRequests scenarioEnv employeeB { userId := some "uid-a", status := none }
      threeRequestsStore =
      .json 200
        [("-Nreq3", { requestOfA "sick" 1 "approved" with createdAt := 1704410000000 }),
          ("-Nreq1", requestOfA "annual" 3 "pending")] ∧
    threeRequestsStore.leaveRequests.filter
        (fun p => specFilter employeeB { userId := some "uid-a", status := none } p.2) =
      [("-Nreq2", { requestOfA "casual" 2 "pending" with
          userId := "uid-b", userEmail := "b@example.com", createdAt := 1704405000000 })] := by
  decide

/-! ## Balance: read and set -/

/-- C17: with the database working, the read handler called by the account itself or by
an admin answers 200 with the default allocation, annual 12, sick 10, casual 8, when no
balance record is stored for the account, and with the stored record when there is one.
The handler has no write: it answers from the store and returns no store. -/
theorem read_default_or_record (env : Env) (henv : env.healthy) (user : AuthUser)
    (userId : String) (hauth : user.uid = userId ∨ isAdmin user.email = true) (db : Store) :
    DEFAULT_BALANCE = { annual := some 12, sick := some 10, casual := some 8 } ∧
    (getBalance db userId = none →
      getLeaveBalance env user userId db = .json 200 DEFAULT_BALANCE) ∧
    (∀ b, getBalance db userId = some b → getLeaveBalance env user userId db = .json 200 b) := by
  obtain ⟨hinit, hrej⟩ := henv
  have hguard : ¬ (user.uid ≠ userId ∧ (!isAdmin user.email) = true) := by
    rcases hauth with h | h
    · simp [h]
    · simp [h]
  refine ⟨rfl, ?_, ?_⟩
  · intro hnone
    simp only [getLeaveBalance, hinit, hrej, hnone, Bool.not_true, Bool.false_eq_true,
      if_false, if_neg hguard, Option.getD_none]
  · intro b hb
    simp only [getLeaveBalance, hinit, hrej, hb, Bool.not_true, Bool.false_eq_true,
      if_false, if_neg hguard, Option.getD_some]

/-- C17, on stores: employee A without a record reads the default allocation, twice, and
employee A with 2 sick days left reads the stored record. -/
theorem read_default_or_record_witness :
    getLeaveBalance scenarioEnv employeeA "uid-a" unpaidStore = .json 200 DEFAULT_BALANCE ∧
    getLeaveBalance scenarioEnv employeeA "uid-a" lowSickStore =
      .json 200 { annual := some 12, sick := some 2, casual := some 8 } :=
  ⟨(read_default_or_record scenarioEnv scenarioEnv_healthy employeeA "uid-a" (Or.inl rfl)
      unpaidStore).2.1 (by decide),
    (read_default_or_record scenarioEnv scenarioEnv_healthy employeeA "uid-a" (Or.inl rfl)
      lowSickStore).2.2 _ (by decide)⟩

/-- C18: for employee A without a balance record, a `setBalance` call that supplies only
`annual = 5` stores a record with `annual` alone; `sick` and `casual` are not stored with
their default values, and the read afterwards returns a balance without them. -/
theorem first_set_stores_only_supplied :
    getBalance unpaidStore "uid-a" = none ∧
    (postLeaveBalance scenarioEnv adminUser annualOnlyBody unpaidStore).2 =
      .json 200 { annual := some 5, sick := none, casual := none } ∧
    getBalance (postLeaveBalance scenarioEnv adminUser annualOnlyBody unpaidStore).1 "uid-a" =
      some { annual := some 5, sick := none, casual := none } ∧
    getLeaveBalance scenarioEnv employeeA "uid-a"
      (postLeaveBalance scenarioEnv adminUser annualOnlyBody unpaidStore).1 =
      .json 200 { annual := some 5, sick := none, casual := none } := by
  decide

/-- With the database working, a `setBalance` call of an admin that names an account is
answered 200 with the balance read after `update(updates)`. -/
theorem postLeaveBalance_eq (env : Env) (henv : env.healthy) (user : AuthUser)
    (hadm : isAdmin user.email = true) (body : BalanceBody) (uid : String)
    (huid : body.userId = some uid) (hne : uid ≠ "") (db : Store) :
    postLeaveBalance env user body db =
      (updateBalance db uid
          { annual := body.annual.asNumber, sick := body.sick.asNumber,
            casual := body.casual.asNumber },
        .json 200 ((getBalance (updateBalance db uid
          { annual := body.annual.asNumber, sick := body.sick.asNumber,
            casual := body.casual.asNumber }) uid).getD DEFAULT_BALANCE)) := by
  obtain ⟨hinit, hrej⟩ := henv
  simp [postLeaveBalance, hinit, hrej, hadm, huid, truthy, hne]

/-- The balance records after `update(updates)`: the record of the named account holds
the supplied numbers and, in the other categories, what it held; the records of the
other accounts are as they were. -/
theorem getBalance_updateBalance (db : Store) (uid uid' : String) (updates : LeaveBalance) :
    getBalance (updateBalance db uid updates) uid' =
      if uid = uid' ∧
          ¬ (updates.annual.isNone ∧ updates.sick.isNone ∧ updates.casual.isNone) then
        some
          { annual := match updates.annual with
              | some n => some n
              | none => ((getBalance db uid).getD
                  { annual := none, sick := none, casual := none }).annual
            sick := match updates.sick with
              | some n => some n
              | none => ((getBalance db uid).getD
                  { annual := none, sick := none, casual := none }).sick
            casual := match updates.casual with
              | some n => some n
              | none => ((getBalance db uid).getD
                  { annual := none, sick := none, casual := none }).casual }
      else getBalance db uid' := by
  unfold updateBalance
  by_cases hemp : updates.annual.isNone ∧ updates.sick.isNone ∧ updates.casual.isNone
  · rw [if_pos hemp, if_neg (fun h => h.2 hemp)]
  · rw [if_neg hemp]
    simp only [getBalance_setBalance]
    by_cases hu : uid = uid'
    · rw [if_pos hu, if_pos ⟨hu, hemp⟩]
    · rw [if_neg hu, if_neg (fun h => hu h.1)]

/-- C19: with the database working, a `setBalance` call of an admin for an account with
a stored balance is answered 200 with the balance that is stored afterwards; in it each
of annual, sick, casual that the body supplies as a number is that number and each other
one is as it was stored; the balance of every other account and every request are as
they were. -/
theorem setBalance_overwrites_supplied (env : Env) (henv : env.healthy) (user : AuthUser)
    (hadm : isAdmin user.email = true) (body : BalanceBody) (uid : String)
    (huid : body.userId = some uid) (hne : uid ≠ "") (db : Store) (old : LeaveBalance)
    (hold : getBalance db uid = some old) :
    ∃ new, (postLeaveBalance env user body db).2 = .json 200 new ∧
      getBalance (postLeaveBalance env user body db).1 uid = some new ∧
      (∀ n, body.annual = .number n → new.annual = some n) ∧
      (body.annual.asNumber = none → new.annual = old.annual) ∧
      (∀ n, body.sick = .number n → new.sick = some n) ∧
      (body.sick.asNumber = none → new.sick = old.sick) ∧
      (∀ n, body.casual = .number n → new.casual = some n) ∧
      (body.casual.asNumber = none → new.casual = old.casual) ∧
      (∀ uid', uid' ≠ uid →
        getBalance (postLeaveBalance env user body db).1 uid' = getBalance db uid') ∧
      (postLeaveBalance env user body db).1.leaveRequests = db.leaveRequests := by
  have hmerged : getBalance (updateBalance db uid
      { annual := body.annual.asNumber, sick := body.sick.asNumber,
        casual := body.casual.asNumber }) uid =
      some
        { annual := match body.annual.asNumber with
            | some n => some n
            | none => old.annual
          sick := match body.sick.asNumber with
            | some n => some n
            | none => old.sick
          casual := match body.casual.asNumber with
            | some n => some n
            | none => old.casual } := by
    rw [getBalance_updateBalance, hold]
    by_cases hemp : body.annual.asNumber.isNone ∧ body.sick.asNumber.isNone ∧
        body.casual.asNumber.isNone
    · rw [if_neg (fun h => h.2 hemp)]
      obtain ⟨ha, hs, hc⟩ := hemp
      simp only [Option.isNone_iff_eq_none] at ha hs hc
      simp only [ha, hs, hc]
    · rw [if_pos ⟨rfl, hemp⟩]
      rfl
  rw [postLeaveBalance_eq env henv user hadm body uid huid hne db]
  refine ⟨_, ?_, hmerged, ?_, ?_, ?_, ?_, ?_, ?_, ?_, leaveRequests_updateBalance _ _ _⟩
  · simp only [hmerged, Option.getD_some]
  · intro n hn
    simp [hn, JsVal.asNumber]
  · intro hn
    simp [hn]
  · intro n hn
    simp [hn, JsVal.asNumber]
  · intro hn
    simp [hn]
  · intro n hn
    simp [hn, JsVal.asNumber]
  · intro hn
    simp [hn]
  · intro uid' hne'
    simp only [getBalance_updateBalance]
    rw [if_neg (fun h => hne' h.1.symm)]

/-- C19, on a store: employee A has 12, 2, 8; the admin supplies only `annual = 5`; the
answer and the stored balance are 5, 2, 8. -/
theorem setBalance_overwrites_supplied_witness :
    ∃ new, (postLeaveBalance scenarioEnv adminUser annualOnlyBody lowSickStore).2 =
        .json 200 new ∧
      getBalance (postLeaveBalance scenarioEnv adminUser annualOnlyBody lowSickStore).1
        "uid-a" = some new ∧
      (∀ n, annualOnlyBody.annual = .number n → new.annual = some n) ∧
      (annualOnlyBody.annual.asNumber = none → new.annual = some 12) ∧
      (∀ n, annualOnlyBody.sick = .number n → new.sick = some n) ∧
      (annualOnlyBody.sick.asNumber = none → new.sick = some 2) ∧
      (∀ n, annualOnlyBody.casual = .number n → new.casual = some n) ∧
      (annualOnlyBody.casual.asNumber = none → new.casual = some 8) ∧
      (∀ uid', uid' ≠ "uid-a" →
        getBalance (postLeaveBalance scenarioEnv adminUser annualOnlyBody lowSickStore).1
          uid' = getBalance lowSickStore uid') ∧
      (postLeaveBalance scenarioEnv adminUser annualOnlyBody lowSickStore).1.leaveRequests =
        lowSickStore.leaveRequests :=
  setBalance_overwrites_supplied scenarioEnv scenarioEnv_healthy adminUser (by decide)
    annualOnlyBody "uid-a" rfl (by decide) lowSickStore
    { annual := some 12, sick := some 2, casual := some 8 } (by decide)

/-- C20, as stated: a `setBalance` call whose `annual` is the string "5" and whose `sick`
is the number 3 is answered 200, not with an error, and the stored balance of employee A
changes from 12, 10, 8 to 12, 3, 8. -/
theorem setBalance_accepts_non_numeric :
    stringAnnualBody.annual ≠ .undefined ∧ stringAnnualBody.annual.asNumber = none ∧
    getBalance emptyRequestsStore "uid-a" =
      some { annual := some 12, sick := some 10, casual := some 8 } ∧
    (postLeaveBalance scenarioEnv adminUser stringAnnualBody emptyRequestsStore).2 =
      .json 200 { annual := some 12, sick := some 3, casual := some 8 } ∧
    getBalance (postLeaveBalance scenarioEnv adminUser stringAnnualBody
      emptyRequestsStore).1 "uid-a" =
      some { annual := some 12, sick := some 3, casual := some 8 } := by
  decide

/-- C20, amended: with the database working, a `setBalance` call of an admin in which a
field is present but not a number is not rejected on that account: it is answered 200
with the balance read after the write; each category whose field is not a number keeps
the stored value it had (or stays absent); each field that is a number is still
applied: that category of the stored balance holds the number of the call. -/
theorem setBalance_ignores_non_numeric (env : Env) (henv : env.healthy) (user : AuthUser)
    (hadm : isAdmin user.email = true) (body : BalanceBody) (uid : String)
    (huid : body.userId = some uid) (hne : uid ≠ "") (db : Store)
    (_hbad : (body.annual ≠ .undefined ∧ body.annual.asNumber = none) ∨
      (body.sick ≠ .undefined ∧ body.sick.asNumber = none) ∨
      (body.casual ≠ .undefined ∧ body.casual.asNumber = none)) :
    (postLeaveBalance env user body db).2 =
      .json 200 ((getBalance (postLeaveBalance env user body db).1 uid).getD
        DEFAULT_BALANCE) ∧
    (body.annual.asNumber = none →
      (getBalance (postLeaveBalance env user body db).1 uid).bind (fun b => b.annual) =
        (getBalance db uid).bind (fun b => b.annual)) ∧
    (body.sick.asNumber = none →
      (getBalance (postLeaveBalance env user body db).1 uid).bind (fun b => b.sick) =
        (getBalance db uid).bind (fun b => b.sick)) ∧
    (body.casual.asNumber = none →
      (getBalance (postLeaveBalance env user body db).1 uid).bind (fun b => b.casual) =
        (getBalance db uid).bind (fun b => b.casual)) ∧
    (∀ n, body.annual = .number n →
      (getBalance (postLeaveBalance env user body db).1 uid).bind (fun b => b.annual) =
        some n) ∧
    (∀ n, body.sick = .number n →
      (getBalance (postLeaveBalance env user body db).1 uid).bind (fun b => b.sick) =
        some n) ∧
    (∀ n, body.casual = .number n →
      (getBalance (postLeaveBalance env user body db).1 uid).bind (fun b => b.casual) =
        some n) := by
  rw [postLeaveBalance_eq env henv user hadm body uid huid hne db]
  simp only [getBalance_updateBalance, true_and]
  refine ⟨?_, ?_, ?_, ?_, ?_, ?_⟩
  · intro hn
    split_ifs
    · rfl
    · cases hg : getBalance db uid <;> simp [hn]
  · intro hn
    split_ifs
    · rfl
    · cases hg : getBalance db uid <;> simp [hn]
  · intro hn
    split_ifs
    · rfl
    · cases hg : getBalance db uid <;> simp [hn]
  · intro n hn
    simp [hn, JsVal.asNumber]
  · intro n hn
    simp [hn, JsVal.asNumber]
  · intro n hn
    simp [hn, JsVal.asNumber]

/-- C20, amended, on a call whose `annual` is the string "5" and whose `sick` is the
number 3: the call is answered 200, the stored `annual` of employee A is as it was and
the stored `sick` is 3. -/
theorem setBalance_ignores_non_numeric_witness :
    (postLeaveBalance scenarioEnv adminUser stringAnnualBody emptyRequestsStore).2 =
      .json 200 ((getBalance (postLeaveBalance scenarioEnv adminUser stringAnnualBody
        emptyRequestsStore).1 "uid-a").getD DEFAULT_BALANCE) ∧
    (getBalance (postLeaveBalance scenarioEnv adminUser stringAnnualBody
      emptyRequestsStore).1 "uid-a").bind (fun b => b.annual) =
      (getBalance emptyRequestsStore "uid-a").bind (fun b => b.annual) ∧
    (getBalance (postLeaveBalance scenarioEnv adminUser stringAnnualBody
      emptyRequestsStore).1 "uid-a").bind (fun b => b.sick) = some 3 :=
  ⟨(setBalance_ignores_non_numeric scenarioEnv scenarioEnv_healthy adminUser (by decide)
      stringAnnualBody "uid-a" rfl (by decide) emptyRequestsStore
      (Or.inl ⟨by decide, by decide⟩)).1,
    (setBalance_ignores_non_numeric scenarioEnv scenarioEnv_healthy adminUser (by decide)
      stringAnnualBody "uid-a" rfl (by decide) emptyRequestsStore
      (Or.inl ⟨by decide, by decide⟩)).2.1 (by decide),
    (setBalance_ignores_non_numeric scenarioEnv scenarioEnv_healthy adminUser (by decide)
      stringAnnualBody "uid-a" rfl (by decide) emptyRequestsStore
      (Or.inl ⟨by decide, by decide⟩)).2.2.2.2.2.1 3 rfl⟩

/-! ## Registration -/

/-- C21, as stated: employee A is registered, with a full name, a department and 12, 2,
8 days left; a second register call of employee A is answered 200, not with an error,
and leaves the account with the default balance 12, 10, 8 and without full name and
department. -/
theorem register_again_overwrites :
    getBalance registeredStore "uid-a" =
      some { annual := some 12, sick := some 2, casual := some 8 } ∧
    (postRegisterUser scenarioEnv employeeA registerBodyA registeredStore).2 = .json 200 () ∧
    getBalance (postRegisterUser scenarioEnv employeeA registerBodyA registeredStore).1
      "uid-a" = some DEFAULT_BALANCE ∧
    (kvGet (postRegisterUser scenarioEnv employeeA registerBodyA registeredStore).1.users
      "uid-a").map (fun u => (u.fullName, u.department)) = some (none, none) := by
  decide

/-- C21, amended: with the database working, a register call whose email is the email
of the caller and whose role is given is answered 200 whether or not the caller already
has an account, and writes the account anew: email and role of the call, the default
balance, the time of the call, and the profile fields of the call (a field that is not
supplied is not kept); every other account and every request are as they were. -/
theorem register_replaces_account (env : Env) (henv : env.healthy) (user : AuthUser)
    (body : RegisterBody) (db : Store) (hemail : body.email = some user.email)
    (hne : user.email ≠ "") (hrole : truthy body.role = true) :
    (postRegisterUser env user body db).2 = .json 200 () ∧
    kvGet (postRegisterUser env user body db).1.users user.uid =
      some
        { email := body.email, role := body.role, leaveBalance := some DEFAULT_BALANCE,
          createdAt := some env.now, fullName := profileField body.fullName,
          phone := profileField body.phone, department := profileField body.department,
          employeeId := profileField body.employeeId } ∧
    (∀ uid, uid ≠ user.uid →
      kvGet (postRegisterUser env user body db).1.users uid = kvGet db.users uid) ∧
    (postRegisterUser env user body db).1.leaveRequests = db.leaveRequests := by
  obtain ⟨hinit, hrej⟩ := henv
  have htr : truthy (some user.email) = true := by simp [truthy, hne]
  simp only [postRegisterUser, hinit, hrej, hemail, htr, hrole, Option.getD_some,
    Bool.not_true, Bool.or_self, Bool.false_eq_true, if_false, ne_eq, not_true_eq_false]
  refine ⟨trivial, ?_, ?_, trivial⟩
  · simp [kvGet_kvSet]
  · intro uid huid
    simp only [kvGet_kvSet]
    rw [if_neg (fun e => huid e.symm)]

theorem register_replaces_account_witness :
    (postRegisterUser scenarioEnv employeeA registerBodyA registeredStore).2 = .json 200 () ∧
    kvGet (postRegisterUser scenarioEnv employeeA registerBodyA registeredStore).1.users
      employeeA.uid =
      some
        { email := registerBodyA.email, role := registerBodyA.role,
          leaveBalance := some DEFAULT_BALANCE, createdAt := some scenarioEnv.now,
          fullName := profileField registerBodyA.fullName,
          phone := profileField registerBodyA.phone,
          department := profileField registerBodyA.department,
          employeeId := profileField registerBodyA.employeeId } ∧
    (∀ uid, uid ≠ employeeA.uid →
      kvGet (postRegisterUser scenarioEnv employeeA registerBodyA registeredStore).1.users
        uid = kvGet registeredStore.users uid) ∧
    (postRegisterUser scenarioEnv employeeA registerBodyA registeredStore).1.leaveRequests =
      registeredStore.leaveRequests :=
  register_replaces_account scenarioEnv scenarioEnv_healthy employeeA registerBodyA
    registeredStore rfl (by decide) (by decide)

/-! ## Authorization -/

/-- C22: with the database configured, for a caller whose email is not in
`ADMIN_EMAILS` the review handler, the `setBalance` handler, the users list and the stats
handler answer 403 "Admin only" for every input, and the two handlers that write leave
the store as it was; a caller is an admin exactly when the email is in `ADMIN_EMAILS`. -/
theorem admin_only_forbidden (env : Env) (hinit : env.firebaseInitialized = true)
    (user : AuthUser) (hnon : user.email ∉ ADMIN_EMAILS) (db : Store) :
    (∀ id body, patchLeaveRequest env user id body db = (db, .error 403 "Admin only")) ∧
    (∀ body, postLeaveBalance env user body db = (db, .error 403 "Admin only")) ∧
    getUsers env user db = .error 403 "Admin only" ∧
    getStats env user db = .error 403 "Admin only" ∧
    (∀ email, isAdmin email = true ↔ email ∈ ADMIN_EMAILS) := by
  have hadm : isAdmin user.email = false := by
    simpa [isAdmin] using hnon
  refine ⟨?_, ?_, ?_, ?_, ?_⟩
  · intro id body
    simp [patchLeaveRequest, hinit, hadm]
  · intro body
    simp [postLeaveBalance, hinit, hadm]
  · simp [getUsers, hinit, hadm]
  · simp [getStats, hinit, hadm]
  · intro email
    simp [isAdmin]

theorem admin_only_forbidden_witness :
    (∀ id body, patchLeaveRequest scenarioEnv employeeB id body lowSickStore =
      (lowSickStore, .error 403 "Admin only")) ∧
    (∀ body, postLeaveBalance scenarioEnv employeeB body lowSickStore =
      (lowSickStore, .error 403 "Admin only")) ∧
    getUsers scenarioEnv employeeB lowSickStore = .error 403 "Admin only" ∧
    getStats scenarioEnv employeeB lowSickStore = .error 403 "Admin only" ∧
    (∀ email, isAdmin email = true ↔ email ∈ ADMIN_EMAILS) :=
  admin_only_forbidden scenarioEnv rfl employeeB (by decide) lowSickStore

/-- C23: with the database working, the balance read handler answers 403 "Forbidden"
exactly when the uid of the caller differs from the account id and the caller is not an
admin; in every other case it answers 200 with the balance of the account, the stored
record or the default allocation. -/
theorem read_forbidden_iff (env : Env) (henv : env.healthy) (user : AuthUser)
    (userId : String) (db : Store) :
    (getLeaveBalance env user userId db = .error 403 "Forbidden" ↔
      user.uid ≠ userId ∧ isAdmin user.email = false) ∧
    (¬ (user.uid ≠ userId ∧ isAdmin user.email = false) →
      getLeaveBalance env user userId db =
        .json 200 ((getBalance db userId).getD DEFAULT_BALANCE)) := by
  obtain ⟨hinit, hrej⟩ := henv
  by_cases hown : user.uid = userId
  · simp [getLeaveBalance, hinit, hrej, hown]
  · by_cases hadm : isAdmin user.email = true
    · simp [getLeaveBalance, hinit, hrej, hown, hadm]
    · simp [getLeaveBalance, hinit, hrej, hown, hadm]

theorem read_forbidden_iff_witness :
    (getLeaveBalance scenarioEnv employeeB "uid-a" lowSickStore = .error 403 "Forbidden" ↔
      employeeB.uid ≠ "uid-a" ∧ isAdmin employeeB.email = false) ∧
    (¬ (adminUser.uid ≠ "uid-a" ∧ isAdmin adminUser.email = false) →
      getLeaveBalance scenarioEnv adminUser "uid-a" lowSickStore =
        .json 200 ((getBalance lowSickStore "uid-a").getD DEFAULT_BALANCE)) :=
  ⟨(read_forbidden_iff scenarioEnv scenarioEnv_healthy employeeB "uid-a" lowSickStore).1,
    (read_forbidden_iff scenarioEnv scenarioEnv_healthy adminUser "uid-a" lowSickStore).2⟩

/-! ## Review: what a call that succeeds has written -/

/-- A review call that is answered without error found the request, was given a status
of `STATUSES`, wrote the debited balance of the owner when the status is `approved` and
no balance otherwise, and rewrote the request with the status, the reviewer, the review
time and, when one is given, the comment. -/
theorem patchLeaveRequest_success (env : Env) (user : AuthUser) (id : String)
    (body : ReviewBody) (db : Store)
    (hsucc : (patchLeaveRequest env user id body db).2.isError = false) :
    ∃ data, kvGet db.leaveRequests id = some data ∧
      STATUSES.contains (body.status.getD "") = true ∧
      patchLeaveRequest env user id body db =
        ({ users :=
              (if body.status.getD "" = "approved" then
                setBalance db data.userId
                  (debitBalance ((getBalance db data.userId).getD DEFAULT_BALANCE)
                    data.leaveType data.days)
              else db).users
           leaveRequests := kvSet db.leaveRequests id
              { data with
                status := body.status.getD ""
                reviewedBy := some user.email
                reviewedAt := some env.serverTimestamp
                adminComment := match body.adminComment with
                  | some c => some c
                  | none => data.adminComment } },
          .json 200 (id,
              { data with
                status := body.status.getD ""
                reviewedBy := some user.email
                reviewedAt := some env.serverTimestamp
                adminComment := match body.adminComment with
                  | some c => some c
                  | none => data.adminComment })) := by
  generalize hout : patchLeaveRequest env user id body db = out at hsucc ⊢
  cases hk : kvGet db.leaveRequests id with
  | none =>
    simp only [patchLeaveRequest, hk] at hout
    split_ifs at hout <;> subst hout <;> simp [Response.isError] at hsucc
  | some data =>
    simp only [patchLeaveRequest, commitReview, hk] at hout
    split_ifs at hout with h0 h1 h2 h3 h4 <;> subst hout <;>
      first
      | (exfalso; simp [Response.isError] at hsucc; done)
      | (refine ⟨data, rfl, ?_, ?_⟩
         · have hst : truthy body.status = true ∧ body.status.getD "" ∈ STATUSES := by
             simpa using h2
           simpa using hst.2
         · simp [h4, leaveRequests_setBalance])

/-- C27: a review call that is answered without error leaves, on the reviewed request,
owner, owner email, category, dates, day count, reason and creation time as they were,
and sets the status to the one given, the reviewer to the email of the caller, the
review time to the server time and the comment to the one given, keeping the stored
comment when none is given; the request under every other id is as it was; the balance
of every account other than the owner is as it was; and when the status written is not
`approved` the whole users collection, with every balance, is as it was. -/
theorem review_frame (env : Env) (user : AuthUser) (id : String) (body : ReviewBody)
    (db : Store) (hsucc : (patchLeaveRequest env user id body db).2.isError = false) :
    ∃ data new, kvGet db.leaveRequests id = some data ∧
      kvGet (patchLeaveRequest env user id body db).1.leaveRequests id = some new ∧
      new.userId = data.userId ∧ new.userEmail = data.userEmail ∧
      new.leaveType = data.leaveType ∧ new.startDate = data.startDate ∧
      new.endDate = data.endDate ∧ new.days = data.days ∧ new.reason = data.reason ∧
      new.createdAt = data.createdAt ∧
      body.status = some new.status ∧ new.reviewedBy = some user.email ∧
      new.reviewedAt = some env.serverTimestamp ∧
      (body.adminComment = none → new.adminComment = data.adminComment) ∧
      (∀ c, body.adminComment = some c → new.adminComment = some c) ∧
      (∀ id', id' ≠ id →
        kvGet (patchLeaveRequest env user id body db).1.leaveRequests id' =
          kvGet db.leaveRequests id') ∧
      (∀ uid, uid ≠ data.userId →
        getBalance (patchLeaveRequest env user id body db).1 uid = getBalance db uid) ∧
      (new.status ≠ "approved" → (patchLeaveRequest env user id body db).1.users = db.users) := by
  obtain ⟨data, hk, hst, hout⟩ := patchLeaveRequest_success env user id body db hsucc
  have hsome : body.status = some (body.status.getD "") := by
    cases hb : body.status with
    | none =>
      rw [hb] at hst
      exact absurd hst (by decide)
    | some st => rfl
  rw [hout]
  refine ⟨data,
    { data with
      status := body.status.getD ""
      reviewedBy := some user.email
      reviewedAt := some env.serverTimestamp
      adminComment := match body.adminComment with
        | some c => some c
        | none => data.adminComment },
    hk, ?_, rfl, rfl, rfl, rfl, rfl, rfl, rfl, rfl, hsome, rfl, rfl, ?_, ?_, ?_, ?_, ?_⟩
  · simp [kvGet_kvSet]
  · intro hc
    simp [hc]
  · intro c hc
    simp [hc]
  · intro id' hne
    simp only [kvGet_kvSet]
    rw [if_neg (fun e => hne e.symm)]
  · intro uid hne
    simp only [getBalance_withRequests]
    split_ifs
    · rw [getBalance_withRequests, getBalance_setBalance, if_neg (fun e => hne e.symm)]
    · rfl
  · intro hna
    simp only [] at hna
    rw [if_neg hna]

/-- C27, on a store: the admin rejects the pending sick request of employee A with a
comment. -/
theorem review_frame_witness :
    ∃ data new, kvGet lowSickStore.leaveRequests "-Nreq1" = some data ∧
      kvGet (patchLeaveRequest scenarioEnv adminUser "-Nreq1" rejectBody
        lowSickStore).1.leaveRequests "-Nreq1" = some new ∧
      new.userId = data.userId ∧ new.userEmail = data.userEmail ∧
      new.leaveType = data.leaveType ∧ new.startDate = data.startDate ∧
      new.endDate = data.endDate ∧ new.days = data.days ∧ new.reason = data.reason ∧
      new.createdAt = data.createdAt ∧
      rejectBody.status = some new.status ∧ new.reviewedBy = some adminUser.email ∧
      new.reviewedAt = some scenarioEnv.serverTimestamp ∧
      (rejectBody.adminComment = none → new.adminComment = data.adminComment) ∧
      (∀ c, rejectBody.adminComment = some c → new.adminComment = some c) ∧
      (∀ id', id' ≠ "-Nreq1" →
        kvGet (patchLeaveRequest scenarioEnv adminUser "-Nreq1" rejectBody
          lowSickStore).1.leaveRequests id' = kvGet lowSickStore.leaveRequests id') ∧
      (∀ uid, uid ≠ data.userId →
        getBalance (patchLeaveRequest scenarioEnv adminUser "-Nreq1" rejectBody
          lowSickStore).1 uid = getBalance lowSickStore uid) ∧
      (new.status ≠ "approved" →
        (patchLeaveRequest scenarioEnv adminUser "-Nreq1" rejectBody lowSickStore).1.users =
          lowSickStore.users) :=
  review_frame scenarioEnv adminUser "-Nreq1" rejectBody lowSickStore (by decide)

/-! ## Stats -/

/-- A review call that rewrites a request writes a status of `STATUSES`. -/
theorem patchLeaveRequest_requests_valid (env : Env) (user : AuthUser) (id : String)
    (body : ReviewBody) (db : Store) :
    (patchLeaveRequest env user id body db).1.leaveRequests = db.leaveRequests ∨
    ∃ data : LeaveRequest, STATUSES.contains (body.status.getD "") = true ∧
      (patchLeaveRequest env user id body db).1.leaveRequests =
        kvSet db.leaveRequests id
          { data with
            status := body.status.getD ""
            reviewedBy := some user.email
            reviewedAt := some env.serverTimestamp
            adminComment := match body.adminComment with
              | some c => some c
              | none => data.adminComment } := by
  generalize hout : patchLeaveRequest env user id body db = out
  cases hk : kvGet db.leaveRequests id with
  | none =>
    left
    simp only [patchLeaveRequest, hk] at hout
    split_ifs at hout <;> subst hout <;> rfl
  | some data =>
    simp only [patchLeaveRequest, commitReview, hk] at hout
    split_ifs at hout with h0 h1 h2 <;> subst hout
    all_goals first
      | (left; rfl)
      | (right
         have hst : truthy body.status = true ∧ body.status.getD "" ∈ STATUSES := by
           simpa using h2
         exact ⟨data, by simpa using hst.2, rfl⟩)

theorem validStatus_new (env : Env) (user : AuthUser) (body : CreateBody) (days : Int) :
    validStatus (newRequest env user body days) = true := by
  simp [validStatus, newRequest, STATUSES]

/-- The statuses stay in `STATUSES`: if every stored request has a status of `STATUSES`,
so has every stored request after a call. -/
theorem validStatus_step (db : Store) (op : Op) (h : allRequests validStatus db = true) :
    allRequests validStatus (step db op) = true := by
  cases op with
  | register env user body =>
    simp only [step, allRequests, leaveRequests_postRegisterUser]
    exact h
  | setBalance env user body =>
    simp only [step, allRequests, leaveRequests_postLeaveBalance]
    exact h
  | create env user body =>
    simp only [step]
    rcases postLeaveRequests_cases env user body db with ⟨hsame, _⟩ |
      ⟨days, _, _, _, _, _, _, hstore, _⟩
    · rw [hsame]
      exact h
    · rw [hstore]
      exact all_kvSet validStatus db.leaveRequests env.pushKey _ h
        (validStatus_new env user body days)
  | review env user id body =>
    simp only [step, allRequests]
    rcases patchLeaveRequest_requests_valid env user id body db with
      hsame | ⟨data, hst, hstore⟩
    · rw [hsame]
      exact h
    · rw [hstore]
      exact all_kvSet validStatus db.leaveRequests id _ h hst
  | cancel env user id =>
    simp only [step, allRequests]
    rcases deleteLeaveRequest_requests env user id db with hsame | ⟨key, hstore⟩
    · rw [hsame]
      exact h
    · rw [hstore]
      exact all_kvRemove validStatus db.leaveRequests key h

theorem validStatus_run (ops : List Op) (db : Store) (h : allRequests validStatus db = true) :
    allRequests validStatus (run db ops) = true := by
  induction ops generalizing db with
  | nil => exact h
  | cons op rest ih => exact ih (step db op) (validStatus_step db op h)

/-- The counting loop, on requests whose statuses are in `STATUSES`: the three counters
are the numbers of requests with each status, and they add up to the number of
requests. -/
theorem countStatuses_eq (l : List (String × LeaveRequest))
    (h : l.all (fun p => validStatus p.2) = true) :
    countStatuses l =
      (l.countP (fun p => decide (p.2.status = "pending")),
        l.countP (fun p => decide (p.2.status = "approved")),
        l.countP (fun p => decide (p.2.status = "rejected"))) ∧
    l.countP (fun p => decide (p.2.status = "pending")) +
      l.countP (fun p => decide (p.2.status = "approved")) +
      l.countP (fun p => decide (p.2.status = "rejected")) = l.length := by
  induction l with
  | nil => simp [countStatuses]
  | cons p rest ih =>
    obtain ⟨k, r⟩ := p
    simp only [List.all_cons, Bool.and_eq_true] at h
    obtain ⟨ih1, ih2⟩ := ih h.2
    have hr : r.status = "pending" ∨ r.status = "approved" ∨ r.status = "rejected" := by
      simpa [validStatus, STATUSES] using h.1
    rcases hr with hr | hr | hr
    · constructor
      · simp [countStatuses, ih1, hr, List.countP_cons]
      · simp only [List.countP_cons, hr, List.length_cons]
        simp
        omega
    · constructor
      · simp [countStatuses, ih1, hr, List.countP_cons]
      · simp only [List.countP_cons, hr, List.length_cons]
        simp
        omega
    · constructor
      · simp [countStatuses, ih1, hr, List.countP_cons]
      · simp only [List.countP_cons, hr, List.length_cons]
        simp
        omega

/-- C25: with the database working and every stored status one of pending, approved,
rejected (which every call preserves), the stats handler answers an admin 200 with
`pending`, `approved` and `rejected` equal to the number of stored requests with that
status and `total` equal to the number of stored requests, the sum of the three. -/
theorem stats_counts (env : Env) (henv : env.healthy) (user : AuthUser)
    (hadm : isAdmin user.email = true) (db : Store)
    (hvalid : allRequests validStatus db = true) :
    (∃ st, getStats env user db = .json 200 st ∧
      st.pending = db.leaveRequests.countP (fun p => decide (p.2.status = "pending")) ∧
      st.approved = db.leaveRequests.countP (fun p => decide (p.2.status = "approved")) ∧
      st.rejected = db.leaveRequests.countP (fun p => decide (p.2.status = "rejected")) ∧
      st.total = db.leaveRequests.length ∧
      st.total = st.pending + st.approved + st.rejected) ∧
    ∀ ops, allRequests validStatus (run db ops) = true := by
  obtain ⟨hinit, hrej⟩ := henv
  obtain ⟨hc, hsum⟩ := countStatuses_eq db.leaveRequests hvalid
  refine ⟨⟨
    { pending := db.leaveRequests.countP (fun p => decide (p.2.status = "pending"))
      approved := db.leaveRequests.countP (fun p => decide (p.2.status = "approved"))
      rejected := db.leaveRequests.countP (fun p => decide (p.2.status = "rejected"))
      total := db.leaveRequests.countP (fun p => decide (p.2.status = "pending")) +
        db.leaveRequests.countP (fun p => decide (p.2.status = "approved")) +
        db.leaveRequests.countP (fun p => decide (p.2.status = "rejected")) },
    ?_, rfl, rfl, rfl, hsum, rfl⟩, fun ops => validStatus_run ops db hvalid⟩
  simp [getStats, hinit, hrej, hadm, hc]

/-- C25, on a store with two pending requests and one approved request. -/
theorem stats_counts_witness :
    ∃ st, getStats scenarioEnv adminUser threeRequestsStore = .json 200 st ∧
      st.pending = threeRequestsStore.leaveRequests.countP
        (fun p => decide (p.2.status = "pending")) ∧
      st.approved = threeRequestsStore.leaveRequests.countP
        (fun p => decide (p.2.status = "approved")) ∧
      st.rejected = threeRequestsStore.leaveRequests.countP
        (fun p => decide (p.2.status = "rejected")) ∧
      st.total = threeRequestsStore.leaveRequests.length ∧
      st.total = st.pending + st.approved + st.rejected :=
  (stats_counts scenarioEnv scenarioEnv_healthy adminUser (by decide) threeRequestsStore
    (by decide)).1

/-! ## Errors and partial effects -/

/-- C24, as stated: the write `ref.update(updates)` on the request rejects after the
balance was written; the approval is answered with the error 500, the request is still
pending, and the annual balance of the owner is debited from 12 to 9. -/
theorem failed_approval_keeps_debit :
    getBalance (storeWithRequest "annual" 3 "pending") "uid-a" =
      some { annual := some 12, sick := some 10, casual := some 8 } ∧
    (patchLeaveRequest updateRejectsEnv adminUser "-Nreq1"
      { status := some "approved", adminComment := none }
      (storeWithRequest "annual" 3 "pending")).2 = .error 500 "permission denied" ∧
    getBalance (patchLeaveRequest updateRejectsEnv adminUser "-Nreq1"
      { status := some "approved", adminComment := none }
      (storeWithRequest "annual" 3 "pending")).1 "uid-a" =
      some { annual := some 9, sick := some 10, casual := some 8 } ∧
    (kvGet (patchLeaveRequest updateRejectsEnv adminUser "-Nreq1"
      { status := some "approved", adminComment := none }
      (storeWithRequest "annual" 3 "pending")).1.leaveRequests "-Nreq1").map
        (fun r => r.status) = some "pending" := by
  decide

/-- C24, amended: a call of register, setBalance, create, review or cancel that is
answered with an error whose status is not 500 (400, 403 or 404) leaves the whole store
as it was; and an approval that is answered without error has both stored the debited
balance of the owner and set the status of the request to `approved`. -/
theorem client_error_no_effect (db : Store) (op : Op) (status : Nat)
    (herr : stepError db op = some status) (hne : status ≠ 500) :
    step db op = db ∧
    ∀ env user id comment,
      (patchLeaveRequest env user id
        { status := some "approved", adminComment := comment } db).2.isError = false →
      ∃ data, kvGet db.leaveRequests id = some data ∧
        getBalance (patchLeaveRequest env user id
          { status := some "approved", adminComment := comment } db).1 data.userId =
          some (debitBalance ((getBalance db data.userId).getD DEFAULT_BALANCE)
            data.leaveType data.days) ∧
        (kvGet (patchLeaveRequest env user id
          { status := some "approved", adminComment := comment } db).1.leaveRequests id).map
            (fun r => r.status) = some "approved" := by
  constructor
  · cases op with
    | register env user body =>
      simp only [step, stepError] at herr ⊢
      generalize hout : postRegisterUser env user body db = out at herr ⊢
      simp only [postRegisterUser] at hout
      split_ifs at hout <;> subst hout <;> simp_all [Response.errorStatus]
    | setBalance env user body =>
      simp only [step, stepError] at herr ⊢
      generalize hout : postLeaveBalance env user body db = out at herr ⊢
      simp only [postLeaveBalance] at hout
      split_ifs at hout <;> subst hout <;> simp_all [Response.errorStatus]
    | create env user body =>
      simp only [step, stepError] at herr ⊢
      rcases postLeaveRequests_cases env user body db with ⟨hsame, _⟩ |
        ⟨days, _, _, _, _, _, _, _, hresp | hresp⟩
      · exact hsame
      · rw [hresp] at herr
        simp [Response.errorStatus] at herr
      · rw [hresp] at herr
        simp only [Response.errorStatus, Option.some.injEq] at herr
        exact absurd herr.symm hne
    | review env user id body =>
      simp only [step, stepError] at herr ⊢
      generalize hout : patchLeaveRequest env user id body db = out at herr ⊢
      cases hk : kvGet db.leaveRequests id with
      | none =>
        simp only [patchLeaveRequest, hk] at hout
        split_ifs at hout <;> subst hout <;> simp_all [Response.errorStatus]
      | some data =>
        simp only [patchLeaveRequest, commitReview, hk] at hout
        split_ifs at hout <;> subst hout <;> simp_all [Response.errorStatus]
    | cancel env user id =>
      simp only [step, stepError] at herr ⊢
      rcases deleteLeaveRequest_cases env user id db with ⟨hsame, _⟩ |
        ⟨key, data, _, _, _, _, _, _, hresp⟩
      · exact hsame
      · rw [hresp] at herr
        simp [Response.errorStatus] at herr
  · intro env user id comment hsucc
    obtain ⟨data, hk, _, hout⟩ := patchLeaveRequest_success env user id _ db hsucc
    refine ⟨data, hk, ?_, ?_⟩
    · rw [hout]
      simp [getBalance_withRequests, getBalance_setBalance]
    · rw [hout]
      simp [kvGet_kvSet]

/-- C24, amended, on a store: employee B cancelling the request of employee A is
answered 403 and the store is as it was. -/
theorem client_error_no_effect_witness :
    step (storeWithRequest "annual" 3 "pending") (.cancel scenarioEnv employeeB "-Nreq1") =
      storeWithRequest "annual" 3 "pending" :=
  (client_error_no_effect (storeWithRequest "annual" 3 "pending")
    (.cancel scenarioEnv employeeB "-Nreq1") 403 (by decide) (by decide)).1

/-! ## Concurrent approvals -/

/-- The steps of an approval call, taken one after the other on a store that no other
call touches, are the review handler with the status `approved`: same answer, same
store. -/
theorem approveAlone_eq (call : ApprovalCall) (db : Store) :
    approveAlone call db =
      some (.done (patchLeaveRequest call.env call.user call.id
          { status := some "approved", adminComment := call.adminComment } db).2,
        (patchLeaveRequest call.env call.user call.id
          { status := some "approved", adminComment := call.adminComment } db).1) := by
  have htr : truthy (some "approved") = true := by decide
  have hst : STATUSES.contains "approved" = true := by decide
  simp only [patchLeaveRequest, commitReview, htr, hst, Option.getD_some, Bool.not_true,
    Bool.or_self, Bool.false_eq_true, if_false, if_true]
  unfold approveAlone
  by_cases h1 : (!call.env.firebaseInitialized) = true
  · simp [approvalStep, h1]
  by_cases h2 : (!isAdmin call.user.email) = true
  · simp [approvalStep, h1, h2]
  by_cases h3 : call.env.rejects (.once (requestPath call.id)) = true
  · simp [approvalStep, h1, h2, h3]
  cases hk : kvGet db.leaveRequests call.id with
  | none => simp [approvalStep, h1, h2, h3, hk]
  | some data =>
    by_cases h4 : call.env.rejects (.once (balancePath data.userId)) = true
    · simp [approvalStep, h1, h2, h3, hk, h4]
    by_cases h5 : call.env.rejects (.set (balancePath data.userId)) = true
    · simp [approvalStep, h1, h2, h3, hk, h4, h5]
    by_cases h6 : call.env.rejects (.update (requestPath call.id)) = true
    · simp [approvalStep, h1, h2, h3, hk, h4, h5, h6]
    simp [approvalStep, h1, h2, h3, hk, h4, h5, h6, leaveRequests_setBalance, kvGet_kvSet]

/-- C26: employee A has 12 annual days and two pending annual requests, of 3 and of 2
days. Approved one after the other, in either order, the two requests leave 7 annual
days. When the two approval calls take their steps in turn, both read the balance 12
before either writes: both calls are answered 200, both requests are stored as
`approved`, and the balance is left at 10 annual days: the debit of 3 days is lost. -/
theorem concurrent_approvals_lose_debit :
    getBalance twoPendingStore "uid-a" =
      some { annual := some 12, sick := some 10, casual := some 8 } ∧
    getBalance
      (patchLeaveRequest scenarioEnv adminUser "-Nreq2"
        { status := some "approved", adminComment := none }
        (patchLeaveRequest scenarioEnv adminUser "-Nreq1"
          { status := some "approved", adminComment := none } twoPendingStore).1).1 "uid-a" =
      some { annual := some 7, sick := some 10, casual := some 8 } ∧
    getBalance
      (patchLeaveRequest scenarioEnv adminUser "-Nreq1"
        { status := some "approved", adminComment := none }
        (patchLeaveRequest scenarioEnv adminUser "-Nreq2"
          { status := some "approved", adminComment := none } twoPendingStore).1).1 "uid-a" =
      some { annual := some 7, sick := some 10, casual := some 8 } ∧
    (interleave approvalOfReq1 approvalOfReq2 alternating
        (.start, .start, twoPendingStore)).map (fun s => (s.1, s.2.1)) =
      some
        (.done (.json 200 ("-Nreq1",
          { requestOfA "annual" 3 "approved" with
            reviewedBy := some "admin@example.com", reviewedAt := some 1704412800000 })),
        .done (.json 200 ("-Nreq2",
          { requestOfA "annual" 2 "approved" with
            reviewedBy := some "admin@example.com", reviewedAt := some 1704412800000 }))) ∧
    (interleave approvalOfReq1 approvalOfReq2 alternating
        (.start, .start, twoPendingStore)).map
          (fun s => ((kvGet s.2.2.leaveRequests "-Nreq1").map (fun r => r.status),
            (kvGet s.2.2.leaveRequests "-Nreq2").map (fun r => r.status),
            getBalance s.2.2 "uid-a")) =
      some (some "approved", some "approved",
        some { annual := some 10, sick := some 10, casual := some 8 }) := by
  refine ⟨?_, ?_, ?_, ?_, ?_⟩ <;> decide

end LeaveManagement
